import Mathlib

/-!
Verification development for a discrete-event Monte-Carlo simulator of
entanglement distribution over a chain of lossy quantum links.

The definitions below are a shallow embedding of the Python sources:

* `configs/physics.py` — a mutable dataclass singleton of physical constants,
  plus module-level re-export constants bound once at import time;
* `network/memory.py` — `QuantumMemory` with exponential fidelity decay;
* `network/node.py` — per-neighbour memory lists and communication-busy flags;
* `network/link.py`, `network/topology.py` — fibre links and graph builders;
* `protocols/swapping.py`, `protocols/purification.py`,
  `protocols/filtering.py`, `protocols/generation.py` — the three protocol
  primitives and the filtering predicate;
* `simulation/repeater_chain.py` — the orchestrator `generate_end_to_end`;
* `simulation/runner.py` — the Monte-Carlo runner `run`.

Modelling conventions:
* Python floats are modelled as real numbers (ideal arithmetic).
* The stream of `random.random()` draws is an explicit input `ω : ℕ → ℝ`
  together with a cursor `k` threaded through the state; draws are consumed
  in the order the source consumes them (process creation order for the
  parallel generation attempts, since simpy starts processes FIFO).
* Python object identity of `QuantumMemory` instances is modelled by a
  `uid : ℕ` tag allocated from a per-trial counter.
* simpy's cooperative scheduling of the parallel generation attempts is
  modelled by splitting `try_generate` at its single `yield`: all attempts
  draw (in creation order) at launch time, and the `AllOf` join advances the
  clock to the slowest attempt's completion time.
* A `raise` is modelled as an `Except`-style error value; the unbounded
  `while` loops are modelled with an explicit fuel parameter (`none` means
  the fuel ran out while the source would still be looping).
-/

namespace QNet

noncomputable section

/-- Dataclass `PhysicsConfig` from `configs/physics.py`. -/
structure PhysicsConfig where
  SPEED_OF_LIGHT_FIBER : ℝ
  ATTENUATION_LENGTH_KM : ℝ
  F0_LINK : ℝ
  DEFAULT_COHERENCE_TIME_S : ℝ
  DETECTION_EFFICIENCY : ℝ

/-- The value of the singleton `physics = PhysicsConfig()` as initialised
when the module is first loaded (the dataclass defaults). -/
def physicsInit : PhysicsConfig :=
  { SPEED_OF_LIGHT_FIBER := 2e8
    ATTENUATION_LENGTH_KM := 22
    F0_LINK := 0.9
    DEFAULT_COHERENCE_TIME_S := 1.0
    DETECTION_EFFICIENCY := 0.9 }

/-- Module-level back-compatibility re-export, bound once at import:
`SPEED_OF_LIGHT_FIBER = physics.SPEED_OF_LIGHT_FIBER`. -/
def SPEED_OF_LIGHT_FIBER : ℝ := physicsInit.SPEED_OF_LIGHT_FIBER

/-- Module-level re-export bound once at import. -/
def ATTENUATION_LENGTH_KM : ℝ := physicsInit.ATTENUATION_LENGTH_KM

/-- Module-level re-export bound once at import. -/
def F0_LINK : ℝ := physicsInit.F0_LINK

/-- Module-level re-export bound once at import.  `QuantumMemory.fidelity`
reads this module attribute (`from configs import physics;
physics.DEFAULT_COHERENCE_TIME_S`), not the mutable singleton field. -/
def DEFAULT_COHERENCE_TIME_S : ℝ := physicsInit.DEFAULT_COHERENCE_TIME_S

/-- Module-level re-export bound once at import; read by
`protocols/generation.py`. -/
def DETECTION_EFFICIENCY : ℝ := physicsInit.DETECTION_EFFICIENCY

/-- `swap` from `protocols/swapping.py`:
`num = (4*F1 - 1) * (4*F2 - 1); return (1 + num/3) / 4`. -/
def swap (F1 F2 : ℝ) : ℝ :=
  let num := (4 * F1 - 1) * (4 * F2 - 1)
  (1 + num / 3) / 4

/-- Modelled from the spec: the literal reading of the spec formula
`x = (4F1−1)(4F2−1)/3; F' = (1+3x)/4`, written here only to be compared
with the source function `swap`. -/
def swap_spec_formula (F1 F2 : ℝ) : ℝ :=
  let x := (4 * F1 - 1) * (4 * F2 - 1) / 3
  (1 + 3 * x) / 4

/-- `dejmps` from `protocols/purification.py`: returns `(F_new, P_success)`. -/
def dejmps (F : ℝ) : ℝ × ℝ :=
  let F2 := F * F
  let G := (1 - F) / 3
  let G2 := G * G
  let P := F2 + G2 + 2 * F * G
  let F_new := (F2 + G2 / 9) / P
  (F_new, P)

/-- `bbpssw` from `protocols/purification.py` (an alias of `dejmps`). -/
def bbpssw (F : ℝ) : ℝ × ℝ := dejmps F

/-- Recognised purification schemes (`get_scheme` resolves the lowercased
name and raises `ValueError` otherwise; only the two valid tags are
modelled). -/
inductive Protocol
  | dejmps
  | bbpssw

/-- `get_scheme` from `protocols/purification.py`. -/
def get_scheme : Protocol → ℝ → ℝ × ℝ
  | Protocol.dejmps => dejmps
  | Protocol.bbpssw => bbpssw

/-- `apply_filter` from `protocols/filtering.py`: `fidelity >= threshold`. -/
def apply_filter (fidelity threshold : ℝ) : Prop := fidelity ≥ threshold

instance (F θ : ℝ) : Decidable (apply_filter F θ) :=
  inferInstanceAs (Decidable (F ≥ θ))

/-- One `QuantumMemory` register from `network/memory.py`.  `uid` models
Python object identity; `F0` and `birth` are the stored fidelity and the
simulated time of the last `reset`. -/
structure QMem where
  uid : ℕ
  F0 : ℝ
  birth : ℝ

instance : Inhabited QMem := ⟨⟨0, 0, 0⟩⟩

/-- `QuantumMemory.fidelity`: `F0 * exp(-dt / physics.DEFAULT_COHERENCE_TIME_S)`
with `dt = env.now - birth`; the divisor is the module-level constant bound
at import time. -/
def fidelityQ (q : QMem) (now : ℝ) : ℝ :=
  q.F0 * Real.exp (-((now - q.birth) / DEFAULT_COHERENCE_TIME_S))

/-- `QuantumMemory.reset`: rewrites `F0` and `birth` together. -/
def resetQ (q : QMem) (now f : ℝ) : QMem :=
  { q with F0 := f, birth := now }

/-- `Node.pop_memory_qubits` from `network/node.py`, acting on the memory
list of one `(node, neighbour)` key: raises `RuntimeError` when fewer than
`n` registers exist, otherwise removes and returns the `n` oldest registers
(`pop(0)` repeated `n` times).  Returns `(popped, remaining)`. -/
def pop_memory_qubits (m : List QMem) (n : ℕ) :
    Except String (List QMem × List QMem) :=
  if m.length < n then Except.error "pop_memory_qubits: not enough qubits"
  else Except.ok (m.take n, m.drop n)

/-- One bidirectional fibre link (`network/link.py`).  Node objects are
modelled by natural-number indices; `success_prob` is the Beer-Lambert
value computed at construction. -/
structure FibreLink where
  a : ℕ
  b : ℕ
  length_km : ℝ
  success_prob : ℝ

instance : Inhabited FibreLink := ⟨⟨0, 0, 0, 0⟩⟩

/-- `FibreLink.__init__` with `attenuation_length_km` left `None`, so the
attenuation length is read from the mutable singleton:
`success_prob = exp(-length_km / att_len)`. -/
def mkFibreLink (a b : ℕ) (length_km att_len : ℝ) : FibreLink :=
  ⟨a, b, length_km, Real.exp (-(length_km / att_len))⟩

/-- Round-trip latency of one generation attempt on a link
(`2 * (length_km * 1000) / SPEED_OF_LIGHT_FIBER`, from
`protocols/generation.py`). -/
def rtt (l : FibreLink) : ℝ :=
  2 * (l.length_km * 1000 / SPEED_OF_LIGHT_FIBER)

/-- The mutable network state: the simulated clock `env.now`, the
per-`(owner, neighbour)` memory lists and busy flags of all nodes, the
fresh-uid counter for new registers, and the cursor `k` into the stream of
`random.random()` draws. -/
structure NetState where
  now : ℝ
  mem : ℕ → ℕ → List QMem
  busy : ℕ → ℕ → Bool
  nextUid : ℕ
  k : ℕ

/-- Replace the memory list stored at key `(a, b)`. -/
def setMem (m : ℕ → ℕ → List QMem) (a b : ℕ) (L : List QMem) :
    ℕ → ℕ → List QMem :=
  fun x y => if x = a ∧ y = b then L else m x y

/-- Append one register at key `(a, b)` (`list.append` in
`Node.add_memory_qubit`). -/
def appendQubit (m : ℕ → ℕ → List QMem) (a b : ℕ) (q : QMem) :
    ℕ → ℕ → List QMem :=
  setMem m a b (m a b ++ [q])

/-- `Node.set_comm_busy` for the key `(a, b)`. -/
def setBusy (bz : ℕ → ℕ → Bool) (a b : ℕ) (v : Bool) : ℕ → ℕ → Bool :=
  fun x y => if x = a ∧ y = b then v else bz x y

/-- `Node.add_memory_qubit`: creates a fresh `QuantumMemory`, `reset`s it at
the current simulated time, and appends it. -/
def add_memory_qubit (s : NetState) (owner neighbor : ℕ) (f : ℝ) : NetState :=
  { s with mem := appendQubit s.mem owner neighbor ⟨s.nextUid, f, s.now⟩,
           nextUid := s.nextUid + 1 }

/-- The `Pair` record returned by a successful `try_generate`. -/
structure Pair where
  fidelity : ℝ

/-- The state of `try_generate` while it is suspended on its `yield`:
both endpoints' communication interfaces have been marked busy and the
Bernoulli draw has been consumed. -/
def try_generate_mid (s : NetState) (l : FibreLink) : NetState :=
  { s with k := s.k + 1,
           busy := setBusy (setBusy s.busy l.a l.b true) l.b l.a true }

/-- `try_generate` from `protocols/generation.py`, run as the only pending
process: marks both interfaces busy, draws
`random.random() < success_prob * DETECTION_EFFICIENCY`, waits the round
trip, releases both interfaces unconditionally, and on success stores one
fresh register at each endpoint with fidelity `F0_LINK`. -/
def try_generate (ω : ℕ → ℝ) (s : NetState) (l : FibreLink) :
    NetState × Option Pair :=
  let success := ω s.k < l.success_prob * DETECTION_EFFICIENCY
  let s1 := try_generate_mid s l
  let s2 := { s1 with now := s1.now + rtt l,
                      busy := setBusy (setBusy s1.busy l.a l.b false) l.b l.a false }
  if success then
    (add_memory_qubit (add_memory_qubit s2 l.a l.b F0_LINK) l.b l.a F0_LINK,
     some ⟨F0_LINK⟩)
  else (s2, none)

/-- Launch phase of a batch of parallel `try_generate` processes: simpy runs
each created process up to its `yield` in creation order, so the busy flags
are set and the Bernoulli draws are consumed in creation order.  Returns
the per-attempt outcomes together with the state after all launches. -/
def genStarts (ω : ℕ → ℝ) : List FibreLink → NetState →
    List (FibreLink × Bool) × NetState
  | [], s => ([], s)
  | l :: rest, s =>
      let success : Bool :=
        if ω s.k < l.success_prob * DETECTION_EFFICIENCY then true else false
      let s1 := try_generate_mid s l
      let pr := genStarts ω rest s1
      ((l, success) :: pr.1, pr.2)

/-- Completion phase of a batch of parallel `try_generate` processes, with
`t0` the common launch time: each attempt releases both interfaces and, on
success, stores one fresh register at each endpoint with fidelity
`F0_LINK`, born at its own completion time `t0 + rtt`. -/
def genFinish (t0 : ℝ) : List (FibreLink × Bool) → NetState → NetState
  | [], s => s
  | (l, success) :: rest, s =>
      let s1 := { s with busy := setBusy (setBusy s.busy l.a l.b false) l.b l.a false }
      let s2 :=
        if success then
          { s1 with
            mem := appendQubit
                     (appendQubit s1.mem l.a l.b ⟨s1.nextUid, F0_LINK, t0 + rtt l⟩)
                     l.b l.a ⟨s1.nextUid + 1, F0_LINK, t0 + rtt l⟩,
            nextUid := s1.nextUid + 2 }
        else s1
      genFinish t0 rest s2

/-- Completion time of the slowest attempt of a batch (the `AllOf` join). -/
def maxRtt (attempts : List FibreLink) : ℝ :=
  attempts.foldr (fun l m => max (rtt l) m) 0

/-- One batch of parallel generation attempts followed by the `AllOf` join:
launches in creation order, clock advanced to the slowest completion, then
the completion effects.  When `attempts` is empty the source skips the
`yield` and the clock does not move. -/
def genPhase (ω : ℕ → ℝ) (attempts : List FibreLink) (s : NetState) : NetState :=
  let pr := genStarts ω attempts s
  genFinish s.now pr.1 { pr.2 with now := s.now + maxRtt attempts }

/-- The generation attempts created by one pass of the
`for link in path_links: missing = needed - len(...)` loop of
`generate_end_to_end` (creation order; `range(missing)` is empty when the
link already holds enough pairs). -/
def attemptsList (needed : ℕ) (m : ℕ → ℕ → List QMem) :
    List FibreLink → List FibreLink
  | [] => []
  | l :: rest => List.replicate (needed - (m l.a l.b).length) l
                   ++ attemptsList needed m rest

/-- `_purify_link` from `simulation/repeater_chain.py` (which calls
`_purify_pair` for each round): while rounds remain, pop the two oldest
registers at each endpoint, average the two popped fidelities on side `a`,
apply the scheme, draw acceptance, and on success `reset` the two surviving
registers to the new fidelity and reinsert them at the head of each list. -/
def purify_link (ω : ℕ → ℝ) (scheme : ℝ → ℝ × ℝ) (l : FibreLink) :
    ℕ → NetState → Bool × NetState
  | 0, s => (true, s)
  | r + 1, s =>
      let A := s.mem l.a l.b
      let B := s.mem l.b l.a
      if A.length < 2 ∨ B.length < 2 then (false, s)
      else
        let qa := A.headI
        let qaux_a := A.getD 1 default
        let qb := B.headI
        let F_in := fidelityQ qa s.now
        let F_aux := fidelityQ qaux_a s.now
        let F_avg := (F_in + F_aux) / 2
        let pr := scheme F_avg
        let s1 : NetState :=
          { s with k := s.k + 1,
                   mem := setMem (setMem s.mem l.a l.b (A.drop 2)) l.b l.a (B.drop 2) }
        if ω s.k > pr.2 then (false, s1)
        else
          let s2 : NetState :=
            { s1 with
              mem := setMem (setMem s1.mem l.a l.b (resetQ qa s.now pr.1 :: A.drop 2))
                       l.b l.a (resetQ qb s.now pr.1 :: B.drop 2) }
          purify_link ω scheme l r s2

/-- `all(_purify_link(env, link, rounds, purify_fn) for link in path_links)`:
Python's `all` over a generator short-circuits at the first `False`. -/
def purify_links (ω : ℕ → ℝ) (scheme : ℝ → ℝ × ℝ) (rounds : ℕ) :
    List FibreLink → NetState → Bool × NetState
  | [], s => (true, s)
  | l :: rest, s =>
      let pr := purify_link ω scheme l rounds s
      if pr.1 then purify_links ω scheme rounds rest pr.2 else (false, pr.2)

/-- `F_end = fidelities[0]; for F_next in fidelities[1:]: F_end = swap(...)`. -/
def swapFold (fids : List ℝ) : ℝ := fids.tail.foldl swap fids.headI

/-- `Node.peek_memory_fidelity` of the head register of key `(l.a, l.b)`
(the source raises on an empty list; every orchestrator call site is
guarded by a preceding length check, so the junk default is unreachable). -/
def headFidelity (s : NetState) (l : FibreLink) : ℝ :=
  fidelityQ ((s.mem l.a l.b).headI) s.now

/-- The `for link in path_links: pop 1 at each endpoint` loop that consumes
the first pair of every link after swapping. -/
def popFirstAll : List FibreLink → (ℕ → ℕ → List QMem) → ℕ → ℕ → List QMem
  | [], m => m
  | l :: rest, m =>
      let m1 := setMem m l.a l.b ((m l.a l.b).drop 1)
      let m2 := setMem m1 l.b l.a ((m1 l.b l.a).drop 1)
      popFirstAll rest m2

/-- The two orchestration strategies of `generate_end_to_end`. -/
inductive Strategy
  | purify_then_swap
  | swap_then_purify

/-- The keyword configuration of `generate_end_to_end` (the `echo_every`
logging cadence has no semantic effect and is not modelled). -/
structure GenConfig where
  rounds : ℕ
  filter_threshold : ℝ
  strategy : Strategy
  protocol : Protocol
  max_trials : ℕ

/-- The tuple returned by a successful `generate_end_to_end`:
`(latency, F_end, raw_pairs, rate_pair, rate_norm)`. -/
structure TrialOutput where
  latency : ℝ
  F_end : ℝ
  raw_pairs : ℕ
  rate_pair : ℝ
  rate_norm : ℝ

/-- Normal return or raised `RuntimeError` of one `generate_end_to_end`. -/
inductive RunResult
  | ok (out : TrialOutput)
  | err (msg : String)

/-- Outcome of one iteration of the outer `while True` loop:
return/raise (with the final environment state), restart with the carried
state and counters, or exhaustion of the inner accumulation fuel. -/
inductive IterResult
  | out (r : RunResult) (s : NetState)
  | next (s : NetState) (trials raw : ℕ)
  | stuck

/-- The `while len(end_pairs) < rounds + 1` accumulation loop of the
`swap_then_purify` branch: each pass launches one generation attempt per
link, and when every link holds at least one pair, swaps the head pairs
into one more end-to-end candidate and consumes them. -/
def accumLoop (ω : ℕ → ℝ) (cfg : GenConfig) (path : List FibreLink) :
    ℕ → List ℝ → NetState → ℕ → Option (List ℝ × NetState × ℕ)
  | fuel, end_pairs, s, raw =>
      if cfg.rounds + 1 ≤ end_pairs.length then some (end_pairs, s, raw)
      else
        match fuel with
        | 0 => none
        | f + 1 =>
            let s1 := genPhase ω path s
            let raw1 := raw + path.length
            if path.any (fun l => decide ((s1.mem l.a l.b).length < 1)) then
              accumLoop ω cfg path f end_pairs s1 raw1
            else
              let F_curr := swapFold (path.map (headFidelity s1))
              let s2 := { s1 with mem := popFirstAll path s1.mem }
              accumLoop ω cfg path f (end_pairs ++ [F_curr]) s2 raw1

/-- The sequential end-pair purification of the `swap_then_purify` branch:
`survivor_F, Psucc = purify_fn(F_avg)` then a draw, breaking with `None` on
the first rejection.  Returns the surviving fidelity (if any) and the
advanced draw cursor. -/
def endPurify (ω : ℕ → ℝ) (scheme : ℝ → ℝ × ℝ) :
    List ℝ → ℝ → ℕ → Option ℝ × ℕ
  | [], F, k => (some F, k)
  | aux :: rest, F, k =>
      let F_avg := (F + aux) / 2
      let pr := scheme F_avg
      if ω k > pr.2 then (none, k + 1)
      else endPurify ω scheme rest pr.1 (k + 1)

/-- One iteration of the outer `while True` loop of `generate_end_to_end`:
increment the trial counter, raise past `max_trials`, top the links up to
`rounds + 1` pairs, verify, optionally purify each hop, swap the head
fidelities, consume the first pair of every link, optionally accumulate and
purify end-to-end pairs, and filter. -/
def outerIter (cfg : GenConfig) (path : List FibreLink) (ω : ℕ → ℝ)
    (afuel : ℕ) (s : NetState) (trials raw : ℕ) : IterResult :=
  let trials1 := trials + 1
  if cfg.max_trials < trials1 then IterResult.out (RunResult.err "Exceeded max trials") s
  else
    let needed := cfg.rounds + 1
    let attempts := attemptsList needed s.mem path
    let s1 := genPhase ω attempts s
    let raw1 := raw + attempts.length
    if path.any (fun l => decide ((s1.mem l.a l.b).length < needed)) then
      IterResult.next s1 trials1 raw1
    else
      let scheme := get_scheme cfg.protocol
      let pres :=
        match cfg.strategy with
        | Strategy.purify_then_swap => purify_links ω scheme cfg.rounds path s1
        | Strategy.swap_then_purify => (true, s1)
      if pres.1 = false then IterResult.next pres.2 trials1 raw1
      else
        let s2 := pres.2
        let F_end0 := swapFold (path.map (headFidelity s2))
        let s3 := { s2 with mem := popFirstAll path s2.mem }
        match cfg.strategy with
        | Strategy.purify_then_swap =>
            if apply_filter F_end0 cfg.filter_threshold then
              IterResult.out (RunResult.ok
                ⟨s3.now, F_end0, raw1, 1 / s3.now, (raw1 : ℝ) / s3.now⟩) s3
            else IterResult.next s3 trials1 raw1
        | Strategy.swap_then_purify =>
            match accumLoop ω cfg path afuel [F_end0] s3 raw1 with
            | none => IterResult.stuck
            | some (eps, s4, raw4) =>
                let pr := endPurify ω scheme eps.tail eps.headI s4.k
                match pr.1 with
                | none => IterResult.next { s4 with k := pr.2 } trials1 raw4
                | some F =>
                    let s5 := { s4 with k := pr.2 }
                    if apply_filter F cfg.filter_threshold then
                      IterResult.out (RunResult.ok
                        ⟨s5.now, F, raw4, 1 / s5.now, (raw4 : ℝ) / s5.now⟩) s5
                    else IterResult.next s5 trials1 raw4

/-- `generate_end_to_end` from `simulation/repeater_chain.py`, with an
explicit fuel bound on loop iterations: `none` means the fuel ran out while
the source would still be looping; `some (r, s)` is the returned tuple or
the raised error, together with the final environment state. -/
def generate_end_to_end (cfg : GenConfig) (path : List FibreLink) (ω : ℕ → ℝ) :
    ℕ → NetState → ℕ → ℕ → Option (RunResult × NetState)
  | 0, _, _, _ => none
  | fuel + 1, s, trials, raw =>
      match outerIter cfg path ω (fuel + 1) s trials raw with
      | IterResult.out r s2 => some (r, s2)
      | IterResult.stuck => none
      | IterResult.next s2 t2 r2 => generate_end_to_end cfg path ω fuel s2 t2 r2

/-- The topology tags recognised by `network/topology.py` and the runner's
`_get_path` (`build` treats `chain` as `linear`). -/
inductive Topo
  | linear
  | chain
  | ring
  | star

/-- The configuration dictionary consumed by `simulation/runner.run`.
`coherence_time` and `att_len` are `Option`s because the source tests for
the presence of those keys.  The `seed` key is part of the recognised
interface but is never read by `run`. -/
structure Params where
  topology : Topo
  nodes : ℕ
  link_length : ℝ
  strategy : Strategy
  protocol : Protocol
  rounds : ℕ
  filter_threshold : ℝ
  runs : ℕ
  seed : ℤ
  coherence_time : Option ℝ
  att_len : Option ℝ

/-- The "tune physics" prologue of `run`: it mutates the fields of the
`PhysicsConfig` singleton when the corresponding keys are present. -/
def tunePhysics (p : Params) (phys : PhysicsConfig) : PhysicsConfig :=
  let phys1 :=
    match p.coherence_time with
    | some c => { phys with DEFAULT_COHERENCE_TIME_S := c }
    | none => phys
  match p.att_len with
  | some a => { phys1 with ATTENUATION_LENGTH_KM := a }
  | none => phys1

/-- `network/topology.build`: nodes are indices `0 .. n-1`; every link is
constructed with the attenuation length read from the (possibly tuned)
singleton. -/
def buildTopology (att : ℝ) (topo : Topo) (n : ℕ) (L : ℝ) : List FibreLink :=
  match topo with
  | Topo.linear => (List.range (n - 1)).map (fun i => mkFibreLink i (i + 1) L att)
  | Topo.chain => (List.range (n - 1)).map (fun i => mkFibreLink i (i + 1) L att)
  | Topo.ring => (List.range n).map (fun i => mkFibreLink i ((i + 1) % n) L att)
  | Topo.star => (List.range (n - 1)).map (fun i => mkFibreLink 0 (i + 1) L att)

/-- The runner's `_get_path`: linear/chain keep all links, ring drops the
closing edge, star keeps the first and last hub links. -/
def getPath (topo : Topo) (links : List FibreLink) : List FibreLink :=
  match topo with
  | Topo.linear => links
  | Topo.chain => links
  | Topo.ring => links.dropLast
  | Topo.star => [links.headI, links.getLastD default]

/-- A fresh `simpy.Environment` and topology for one run: clock at zero,
all memories empty, all interfaces free; the draw cursor `k` continues from
wherever the process-wide `random` stream was left. -/
def mkInitState (k : ℕ) : NetState :=
  ⟨0, fun _ _ => [], fun _ _ => false, 0, k⟩

/-- The `for _ in range(params.runs)` loop of `run`: each repetition builds
a fresh environment and topology and executes one `generate_end_to_end`.
A raised error or exhausted fuel aborts the whole batch (`none`). -/
def runLoop (fuel : ℕ) (cfg : GenConfig) (att : ℝ) (topo : Topo) (n : ℕ)
    (L : ℝ) (ω : ℕ → ℝ) : ℕ → ℕ → Option (List TrialOutput × ℕ)
  | 0, k => some ([], k)
  | r + 1, k =>
      let path := getPath topo (buildTopology att topo n L)
      match generate_end_to_end cfg path ω fuel (mkInitState k) 0 0 with
      | some (RunResult.ok out, sFin) =>
          match runLoop fuel cfg att topo n L ω r sFin.k with
          | some (rest, k2) => some (out :: rest, k2)
          | none => none
      | _ => none

/-- `statistics.mean` on a list of reals. -/
def meanR (xs : List ℝ) : ℝ := xs.sum / xs.length

/-- The summary dictionary assembled by `run`: the echoed input parameters
plus the five aggregate means.  (The wall-clock `timestamp` entry is
outside the simulation model.) -/
structure Summary where
  params : Params
  latency_mean : ℝ
  fidelity_mean : ℝ
  raw_mean : ℝ
  rate_pair_mean : ℝ
  rate_norm_mean : ℝ

/-- Aggregation of per-run metrics into the summary. -/
def mkSummary (p : Params) (outs : List TrialOutput) : Summary :=
  { params := p
    latency_mean := meanR (outs.map TrialOutput.latency)
    fidelity_mean := meanR (outs.map TrialOutput.F_end)
    raw_mean := meanR (outs.map (fun o => (o.raw_pairs : ℝ)))
    rate_pair_mean := meanR (outs.map TrialOutput.rate_pair)
    rate_norm_mean := meanR (outs.map TrialOutput.rate_norm) }

/-- `simulation/runner.run`: tunes the physics singleton, repeats
`generate_end_to_end` over fresh environments (`max_trials` is left at its
default 5000), and aggregates.  `ω` is the ambient process-wide random
stream and `k0` the position in it at which this invocation starts; the
(possibly tuned) singleton is returned alongside the summary. -/
def run (fuel : ℕ) (p : Params) (ω : ℕ → ℝ) (k0 : ℕ) (phys : PhysicsConfig) :
    Option Summary × PhysicsConfig :=
  let phys1 := tunePhysics p phys
  match runLoop fuel ⟨p.rounds, p.filter_threshold, p.strategy, p.protocol, 5000⟩
      phys1.ATTENUATION_LENGTH_KM p.topology p.nodes p.link_length ω p.runs k0 with
  | some (outs, _) => (some (mkSummary p outs), phys1)
  | none => (none, phys1)

/-- The aggregate-statistics part of a summary (everything except the
echoed input parameters). -/
def statsOf (s : Summary) : ℝ × ℝ × ℝ × ℝ × ℝ :=
  (s.latency_mean, s.fidelity_mean, s.raw_mean, s.rate_pair_mean, s.rate_norm_mean)

/-- Concrete 10 km link between nodes 0 and 1 with the default 22 km
attenuation length, as `network/topology.build` creates for a linear
two-node network. -/
def link01 : FibreLink := mkFibreLink 0 1 10 22

/-- Concrete 10 km link between nodes 1 and 2 (second hop of a linear
three-node network). -/
def link12 : FibreLink := mkFibreLink 1 2 10 22

/-- Orchestrator configuration with `rounds = 0`, `filter_threshold = 0`,
the `purify_then_swap` strategy and the default `max_trials = 5000`. -/
def cfg0 : GenConfig :=
  ⟨0, 0, Strategy.purify_then_swap, Protocol.dejmps, 5000⟩

/-- Random stream whose draw number 1 fails a generation attempt and whose
other draws succeed. -/
def ωOneFail : ℕ → ℝ := fun k => if k = 1 then 1 else 0

/-- Random stream whose draw number 0 fails a generation attempt and whose
other draws succeed. -/
def ωFirstFail : ℕ → ℝ := fun k => if k = 0 then 1 else 0

/-- Random stream all of whose draws fail every generation attempt. -/
def ωAllFail : ℕ → ℝ := fun _ => 1

/-- Runner configuration: linear two-node network, 10 km link,
`purify_then_swap`, `rounds = 0`, `filter_threshold = 0`, one repetition,
seed 42, no `coherence_time` or `att_len` keys. -/
def pRunner : Params :=
  ⟨Topo.linear, 2, 10, Strategy.purify_then_swap, Protocol.dejmps,
   0, 0, 1, 42, none, none⟩

/-- Every memory list of the state is empty on the given path. -/
def memEmptyOnPath (path : List FibreLink) (s : NetState) : Prop :=
  ∀ l ∈ path, s.mem l.a l.b = []

/-- Orchestrator configuration with a zero trial budget. -/
def cfgA : GenConfig :=
  ⟨0, 0, Strategy.purify_then_swap, Protocol.dejmps, 0⟩

/-- Orchestrator configuration with a trial budget of two. -/
def cfgB : GenConfig :=
  ⟨0, 0, Strategy.purify_then_swap, Protocol.dejmps, 2⟩

/-- Concrete state holding two fresh pairs on `link01` (two registers at
each endpoint, all written at time 0 with fidelity 9/10). -/
def sPur : NetState :=
  { now := 0
    mem := setMem (setMem (fun _ _ => []) 0 1 [⟨0, 9 / 10, 0⟩, ⟨1, 9 / 10, 0⟩])
             1 0 [⟨2, 9 / 10, 0⟩, ⟨3, 9 / 10, 0⟩]
    busy := fun _ _ => false
    nextUid := 4
    k := 0 }

end

/-! ### Claim C2 — entanglement swapping -/

/-- C2 counterexample: the literal spec formula
`x = (4F1−1)(4F2−1)/3; F' = (1+3x)/4` disagrees with the source `swap`
already at `F1 = F2 = 1`: the source returns 1, the literal formula 5/2. -/
theorem C2_swap_formula_counterexample :
    swap 1 1 = 1 ∧ swap_spec_formula 1 1 = 5 / 2 ∧
    swap 1 1 ≠ swap_spec_formula 1 1 := by
  refine ⟨by norm_num [swap], by norm_num [swap_spec_formula], by norm_num [swap, swap_spec_formula]⟩

/-- C2 amended: `swap` implements `F' = (1+3x)/4` with
`x = ((4F1−1)/3)·((4F2−1)/3)` (each factor normalised by 3, equivalently
`F' = (1 + (4F1−1)(4F2−1)/3)/4`); this composition is commutative and
associative, and `swap 1 1 = 1`. -/
theorem C2_swap_algebra :
    (∀ F1 F2 : ℝ, swap F1 F2 = (1 + 3 * ((4 * F1 - 1) / 3 * ((4 * F2 - 1) / 3))) / 4) ∧
    (∀ F1 F2 : ℝ, swap F1 F2 = swap F2 F1) ∧
    (∀ F1 F2 F3 : ℝ, swap (swap F1 F2) F3 = swap F1 (swap F2 F3)) ∧
    swap 1 1 = 1 := by
  refine ⟨fun F1 F2 => ?_, fun F1 F2 => ?_, fun F1 F2 F3 => ?_, by norm_num [swap]⟩
  · simp only [swap]; ring
  · simp only [swap]; ring
  · simp only [swap]; ring

/-! ### Claim C3 — DEJMPS bounds -/

/-- C3: for every `F ∈ (0,1)`, `dejmps F` returns `F' ∈ [0,1]` and
`P ∈ (0,1]`, and moreover `F' < 1` strictly, so no `F < 1` yields
`F' = 1` (`F' = 1` only in the limit `F = 1`). -/
theorem C3_dejmps_bounds (F : ℝ) (h0 : 0 < F) (h1 : F < 1) :
    0 ≤ (dejmps F).1 ∧ (dejmps F).1 ≤ 1 ∧ (dejmps F).1 < 1 ∧
    0 < (dejmps F).2 ∧ (dejmps F).2 ≤ 1 := by
  have hG : 0 < (1 - F) / 3 := by linarith
  have hq : 0 < (2 * F + 1) / 3 := by linarith
  have hPeq : F * F + (1 - F) / 3 * ((1 - F) / 3) + 2 * F * ((1 - F) / 3)
      = ((2 * F + 1) / 3) ^ 2 := by ring
  have hPpos : 0 < F * F + (1 - F) / 3 * ((1 - F) / 3) + 2 * F * ((1 - F) / 3) := by
    rw [hPeq]; exact pow_pos hq 2
  have hPle : F * F + (1 - F) / 3 * ((1 - F) / 3) + 2 * F * ((1 - F) / 3) ≤ 1 := by
    rw [hPeq]; nlinarith
  have hnum : 0 ≤ F * F + (1 - F) / 3 * ((1 - F) / 3) / 9 := by positivity
  have hlt : F * F + (1 - F) / 3 * ((1 - F) / 3) / 9
      < F * F + (1 - F) / 3 * ((1 - F) / 3) + 2 * F * ((1 - F) / 3) := by nlinarith
  have hdiv1 : (dejmps F).1
      = (F * F + (1 - F) / 3 * ((1 - F) / 3) / 9)
        / (F * F + (1 - F) / 3 * ((1 - F) / 3) + 2 * F * ((1 - F) / 3)) := rfl
  have hdiv2 : (dejmps F).2
      = F * F + (1 - F) / 3 * ((1 - F) / 3) + 2 * F * ((1 - F) / 3) := rfl
  refine ⟨?_, ?_, ?_, ?_, ?_⟩
  · rw [hdiv1]; exact div_nonneg hnum hPpos.le
  · rw [hdiv1]; exact le_of_lt ((div_lt_one hPpos).mpr hlt)
  · rw [hdiv1]; exact (div_lt_one hPpos).mpr hlt
  · rw [hdiv2]; exact hPpos
  · rw [hdiv2]; exact hPle

/-- C3 witness at `F = 1/2`. -/
theorem C3_dejmps_bounds_witness :
    (0 < (1 / 2 : ℝ)) ∧ ((1 / 2 : ℝ) < 1) ∧
    (0 ≤ (dejmps (1 / 2)).1 ∧ (dejmps (1 / 2)).1 ≤ 1 ∧ (dejmps (1 / 2)).1 < 1 ∧
     0 < (dejmps (1 / 2)).2 ∧ (dejmps (1 / 2)).2 ≤ 1) :=
  ⟨by norm_num, by norm_num, C3_dejmps_bounds (1 / 2) (by norm_num) (by norm_num)⟩

/-! ### Claim C8 — memory fidelity decay -/

/-- C8: a register's current fidelity is the pure function
`F0 · exp(−(t−birth)/coherence_time)` of elapsed simulated time; it is
monotonically non-increasing in time for a fixed register with `F0 ≥ 0`,
and immediately after `reset(F0)` (zero elapsed time) it returns exactly
`F0`. -/
theorem C8_fidelity_decay (q : QMem) (t1 t2 : ℝ) (hF : 0 ≤ q.F0) (ht : t1 ≤ t2) :
    fidelityQ q t1 = q.F0 * Real.exp (-((t1 - q.birth) / DEFAULT_COHERENCE_TIME_S)) ∧
    fidelityQ q t2 ≤ fidelityQ q t1 ∧
    (∀ f now : ℝ, fidelityQ (resetQ q now f) now = f) := by
  have hc : DEFAULT_COHERENCE_TIME_S = 1 := by
    norm_num [DEFAULT_COHERENCE_TIME_S, physicsInit]
  refine ⟨rfl, ?_, ?_⟩
  · unfold fidelityQ
    refine mul_le_mul_of_nonneg_left (Real.exp_le_exp.mpr ?_) hF
    rw [hc]
    simp only [div_one]
    linarith
  · intro f now
    simp [fidelityQ, resetQ]

/-- C8 witness at the register `⟨0, 9/10, 0⟩` and times 0 ≤ 1. -/
theorem C8_fidelity_decay_witness :
    (0 ≤ (QMem.mk 0 (9 / 10) 0).F0) ∧ ((0 : ℝ) ≤ 1) ∧
    (fidelityQ ⟨0, 9 / 10, 0⟩ 0
        = (QMem.mk 0 (9 / 10) 0).F0
          * Real.exp (-((0 - (QMem.mk 0 (9 / 10) 0).birth) / DEFAULT_COHERENCE_TIME_S)) ∧
     fidelityQ ⟨0, 9 / 10, 0⟩ 1 ≤ fidelityQ ⟨0, 9 / 10, 0⟩ 0 ∧
     (∀ f now : ℝ, fidelityQ (resetQ ⟨0, 9 / 10, 0⟩ now f) now = f)) :=
  ⟨by norm_num, by norm_num,
   C8_fidelity_decay ⟨0, 9 / 10, 0⟩ 0 1 (by norm_num) (by norm_num)⟩

/-! ### Claim C9 — pop_memory_qubits -/

/-- C9: `pop_memory_qubits` raises a resource-exhaustion error if and only
if fewer than `n` registers exist (the length check precedes any mutation,
so the list is untouched on the error path), and on success removes and
returns exactly the `n` oldest registers in insertion (FIFO) order. -/
theorem C9_pop_memory_qubits (m : List QMem) (n : ℕ) :
    ((∃ e, pop_memory_qubits m n = Except.error e) ↔ m.length < n) ∧
    (n ≤ m.length →
      pop_memory_qubits m n = Except.ok (m.take n, m.drop n) ∧
      (m.take n).length = n ∧ m.take n ++ m.drop n = m) := by
  constructor
  · constructor
    · rintro ⟨e, he⟩
      by_contra hn
      simp [pop_memory_qubits, hn] at he
    · intro h
      exact ⟨"pop_memory_qubits: not enough qubits", by simp [pop_memory_qubits, h]⟩
  · intro h
    refine ⟨by simp [pop_memory_qubits, Nat.not_lt.mpr h], ?_, List.take_append_drop n m⟩
    simp only [List.length_take]
    omega

/-! ### Claim C6 — heralded generation -/

/-- C6: `try_generate` marks both endpoints' interfaces busy before the
Bernoulli draw (the mid-state, suspended for the round trip, has both flags
set), releases both interfaces unconditionally on every path, advances the
clock by the round-trip latency `2·(length_km·1000/c_fiber)`, succeeds
exactly when the draw is below `success_prob × detection_efficiency`, and
only on success appends one fresh register with the baseline fidelity
`F0_LINK` at each endpoint and returns a pair record; on failure it returns
`None` with no memory writes. -/
theorem C6_try_generate (ω : ℕ → ℝ) (s : NetState) (l : FibreLink)
    (hab : l.a ≠ l.b) :
    (try_generate_mid s l).busy l.a l.b = true ∧
    (try_generate_mid s l).busy l.b l.a = true ∧
    (try_generate ω s l).1.busy l.a l.b = false ∧
    (try_generate ω s l).1.busy l.b l.a = false ∧
    (try_generate ω s l).1.now
      = s.now + 2 * (l.length_km * 1000 / SPEED_OF_LIGHT_FIBER) ∧
    ((try_generate ω s l).2.isSome ↔ ω s.k < l.success_prob * DETECTION_EFFICIENCY) ∧
    (ω s.k < l.success_prob * DETECTION_EFFICIENCY →
      (try_generate ω s l).1.mem l.a l.b
        = s.mem l.a l.b ++ [⟨s.nextUid, F0_LINK, s.now + rtt l⟩] ∧
      (try_generate ω s l).1.mem l.b l.a
        = s.mem l.b l.a ++ [⟨s.nextUid + 1, F0_LINK, s.now + rtt l⟩] ∧
      (try_generate ω s l).2 = some ⟨F0_LINK⟩) ∧
    (¬ ω s.k < l.success_prob * DETECTION_EFFICIENCY →
      (∀ x y, (try_generate ω s l).1.mem x y = s.mem x y) ∧
      (try_generate ω s l).2 = none) := by
  have hba : ¬ (l.a = l.b ∧ l.b = l.a) := fun h => hab h.1
  have hab2 : ¬ (l.b = l.a ∧ l.a = l.b) := fun h => hab h.2
  by_cases hdraw : ω s.k < l.success_prob * DETECTION_EFFICIENCY
  · refine ⟨?_, ?_, ?_, ?_, ?_, ?_, fun _ => ⟨?_, ?_, ?_⟩, fun hc => absurd hdraw hc⟩ <;>
      simp [try_generate, try_generate_mid, add_memory_qubit, appendQubit,
            setMem, setBusy, rtt, hdraw, hba, hab2, hab]
  · refine ⟨?_, ?_, ?_, ?_, ?_, ?_, fun hc => absurd hc hdraw, fun _ => ⟨fun x y => ?_, ?_⟩⟩ <;>
      simp [try_generate, try_generate_mid, add_memory_qubit, appendQubit,
            setMem, setBusy, rtt, hdraw, hba, hab2, hab]

/-- C6 witness at `link01`, the empty initial state, and an all-succeeding
stream. -/
theorem C6_try_generate_witness :
    link01.a ≠ link01.b ∧
    (try_generate (fun _ => 0) (mkInitState 0) link01).1.busy link01.a link01.b = false :=
  have hab : link01.a ≠ link01.b := by simp [link01, mkFibreLink]
  ⟨hab, (C6_try_generate (fun _ => 0) (mkInitState 0) link01 hab).2.2.1⟩

/-! ### Claim C7 — one link-local purification round -/

/-- C7: one purification round on a link pops the two oldest registers at
each endpoint, averages the two popped side-`a` fidelities, applies the
scheme to get `(F', P)`, and draws acceptance against `P`: on acceptance
the surviving register (the first popped one at each endpoint) is `reset`
to `F'` and reinserted at the head of the list, netting one-pair
consumption per endpoint; on rejection all four popped registers are gone
and the round fails. -/
theorem C7_purify_round (ω : ℕ → ℝ) (scheme : ℝ → ℝ × ℝ) (l : FibreLink)
    (s : NetState) (hab : l.a ≠ l.b)
    (hA : 2 ≤ (s.mem l.a l.b).length) (hB : 2 ≤ (s.mem l.b l.a).length) :
    (¬ ω s.k > (scheme ((fidelityQ (s.mem l.a l.b).headI s.now
          + fidelityQ ((s.mem l.a l.b).getD 1 default) s.now) / 2)).2 →
      (purify_link ω scheme l 1 s).1 = true ∧
      (purify_link ω scheme l 1 s).2.mem l.a l.b
        = resetQ (s.mem l.a l.b).headI s.now
            (scheme ((fidelityQ (s.mem l.a l.b).headI s.now
              + fidelityQ ((s.mem l.a l.b).getD 1 default) s.now) / 2)).1
          :: (s.mem l.a l.b).drop 2 ∧
      (purify_link ω scheme l 1 s).2.mem l.b l.a
        = resetQ (s.mem l.b l.a).headI s.now
            (scheme ((fidelityQ (s.mem l.a l.b).headI s.now
              + fidelityQ ((s.mem l.a l.b).getD 1 default) s.now) / 2)).1
          :: (s.mem l.b l.a).drop 2 ∧
      ((purify_link ω scheme l 1 s).2.mem l.a l.b).length + 1
        = (s.mem l.a l.b).length ∧
      ((purify_link ω scheme l 1 s).2.mem l.b l.a).length + 1
        = (s.mem l.b l.a).length ∧
      (purify_link ω scheme l 1 s).2.k = s.k + 1) ∧
    (ω s.k > (scheme ((fidelityQ (s.mem l.a l.b).headI s.now
          + fidelityQ ((s.mem l.a l.b).getD 1 default) s.now) / 2)).2 →
      (purify_link ω scheme l 1 s).1 = false ∧
      (purify_link ω scheme l 1 s).2.mem l.a l.b = (s.mem l.a l.b).drop 2 ∧
      (purify_link ω scheme l 1 s).2.mem l.b l.a = (s.mem l.b l.a).drop 2 ∧
      (purify_link ω scheme l 1 s).2.k = s.k + 1) := by
  have hcond : ¬ ((s.mem l.a l.b).length < 2 ∨ (s.mem l.b l.a).length < 2) := by
    omega
  constructor
  · intro hacc
    have hrun : purify_link ω scheme l 1 s
        = purify_link ω scheme l 0
            { s with k := s.k + 1,
                     mem := setMem (setMem
                       (setMem (setMem s.mem l.a l.b ((s.mem l.a l.b).drop 2))
                         l.b l.a ((s.mem l.b l.a).drop 2))
                       l.a l.b
                       (resetQ (s.mem l.a l.b).headI s.now
                         (scheme ((fidelityQ (s.mem l.a l.b).headI s.now
                           + fidelityQ ((s.mem l.a l.b).getD 1 default) s.now) / 2)).1
                         :: (s.mem l.a l.b).drop 2))
                       l.b l.a
                       (resetQ (s.mem l.b l.a).headI s.now
                         (scheme ((fidelityQ (s.mem l.a l.b).headI s.now
                           + fidelityQ ((s.mem l.a l.b).getD 1 default) s.now) / 2)).1
                         :: (s.mem l.b l.a).drop 2) } := by
      conv_lhs => rw [show (1 : ℕ) = 0 + 1 from rfl]
      simp only [purify_link]
      rw [if_neg hcond, if_neg hacc]
    rw [hrun]
    refine ⟨?_, ?_, ?_, ?_, ?_, ?_⟩ <;>
      simp [purify_link, setMem, hab, fun h : l.b = l.a => hab h.symm,
            List.length_drop]
    all_goals omega
  · intro hrej
    have hrun : purify_link ω scheme l 1 s
        = (false,
           { s with k := s.k + 1,
                    mem := setMem (setMem s.mem l.a l.b ((s.mem l.a l.b).drop 2))
                      l.b l.a ((s.mem l.b l.a).drop 2) }) := by
      conv_lhs => rw [show (1 : ℕ) = 0 + 1 from rfl]
      simp only [purify_link]
      rw [if_neg hcond, if_pos hrej]
    rw [hrun]
    refine ⟨?_, ?_, ?_, ?_⟩ <;>
      simp [setMem, hab, fun h : l.b = l.a => hab h.symm]

/-- C7 witness: two fresh pairs at each endpoint of `link01`, an accepting
draw (0), and the DEJMPS scheme. -/
theorem C7_purify_round_witness :
    (link01.a ≠ link01.b) ∧
    (2 ≤ (sPur.mem link01.a link01.b).length) ∧
    (2 ≤ (sPur.mem link01.b link01.a).length) ∧
    (¬ (fun _ => (0 : ℝ)) sPur.k
        > (dejmps ((fidelityQ (sPur.mem link01.a link01.b).headI sPur.now
            + fidelityQ ((sPur.mem link01.a link01.b).getD 1 default) sPur.now) / 2)).2) ∧
    (purify_link (fun _ => 0) dejmps link01 1 sPur).1 = true := by
  have hab : link01.a ≠ link01.b := by simp [link01, mkFibreLink]
  have hA : 2 ≤ (sPur.mem link01.a link01.b).length := by
    simp [sPur, setMem, link01, mkFibreLink]
  have hB : 2 ≤ (sPur.mem link01.b link01.a).length := by
    simp [sPur, setMem, link01, mkFibreLink]
  have hacc : ¬ (fun _ => (0 : ℝ)) sPur.k
      > (dejmps ((fidelityQ (sPur.mem link01.a link01.b).headI sPur.now
          + fidelityQ ((sPur.mem link01.a link01.b).getD 1 default) sPur.now) / 2)).2 := by
    simp only [sPur, setMem, link01, mkFibreLink, fidelityQ, dejmps]
    norm_num [Real.exp_zero, DEFAULT_COHERENCE_TIME_S, physicsInit]
  exact ⟨hab, hA, hB, hacc,
    ((C7_purify_round (fun _ => 0) dejmps link01 sPur hab hA hB).1 hacc).1⟩

/-- Appending at one key extends every memory list. -/
theorem appendQubit_grows (m : ℕ → ℕ → List QMem) (a b : ℕ) (q : QMem)
    (x y : ℕ) : m x y <+: appendQubit m a b q x y := by
  unfold appendQubit setMem
  by_cases h : x = a ∧ y = b
  · obtain ⟨h1, h2⟩ := h
    subst h1
    subst h2
    simp
  · simp [h]

/-- The launch phase changes only the busy flags and the draw cursor. -/
theorem genStarts_state (ω : ℕ → ℝ) (as : List FibreLink) (s : NetState) :
    ((genStarts ω as s).2).mem = s.mem ∧ ((genStarts ω as s).2).now = s.now ∧
    ((genStarts ω as s).2).nextUid = s.nextUid ∧
    ((genStarts ω as s).2).k = s.k + as.length := by
  induction as generalizing s with
  | nil => simp [genStarts]
  | cons l rest ih =>
      have h := ih (try_generate_mid s l)
      simp only [genStarts]
      refine ⟨h.1, h.2.1, h.2.2.1, ?_⟩
      rw [h.2.2.2]
      simp [try_generate_mid]
      omega

/-- With a stream all of whose draws fail, every launched attempt fails. -/
theorem genStarts_fail (ω : ℕ → ℝ) (as : List FibreLink) (s : NetState)
    (hω : ∀ k l, l ∈ as → ¬ ω k < l.success_prob * DETECTION_EFFICIENCY) :
    ∀ pr ∈ (genStarts ω as s).1, pr.2 = false := by
  induction as generalizing s with
  | nil => simp [genStarts]
  | cons l rest ih =>
      intro pr hpr
      simp only [genStarts, List.mem_cons] at hpr
      rcases hpr with hpr | hpr
      · subst hpr
        simp [hω s.k l (by simp)]
      · exact ih (try_generate_mid s l)
          (fun k l2 hl2 => hω k l2 (List.mem_cons_of_mem _ hl2)) pr hpr

/-- The completion phase only ever appends to memory lists. -/
theorem genFinish_mem_grows (t0 : ℝ) (rs : List (FibreLink × Bool))
    (s : NetState) (x y : ℕ) : s.mem x y <+: (genFinish t0 rs s).mem x y := by
  induction rs generalizing s with
  | nil => exact List.prefix_refl _
  | cons head rest ih =>
      obtain ⟨l, success⟩ := head
      simp only [genFinish]
      cases success with
      | false =>
          simpa using ih { s with busy := setBusy (setBusy s.busy l.a l.b false) l.b l.a false }
      | true =>
          refine List.IsPrefix.trans ?_ (ih _)
          simp only [if_true]
          exact (appendQubit_grows _ l.a l.b _ x y).trans
            (appendQubit_grows _ l.b l.a _ x y)

/-- When every attempt failed, the completion phase writes no memory. -/
theorem genFinish_mem_fail (t0 : ℝ) (rs : List (FibreLink × Bool))
    (s : NetState) (h : ∀ pr ∈ rs, pr.2 = false) :
    (genFinish t0 rs s).mem = s.mem := by
  induction rs generalizing s with
  | nil => rfl
  | cons head rest ih =>
      obtain ⟨l, success⟩ := head
      have hfalse : success = false := h (l, success) (by simp)
      subst hfalse
      simp only [genFinish]
      exact ih _ (fun pr hpr => h pr (List.mem_cons_of_mem _ hpr))

/-- One generation batch only ever appends to memory lists: nothing is
discarded by a batch, whatever the outcomes. -/
theorem genPhase_mem_grows (ω : ℕ → ℝ) (as : List FibreLink) (s : NetState)
    (x y : ℕ) : s.mem x y <+: (genPhase ω as s).mem x y := by
  unfold genPhase
  have h1 := (genStarts_state ω as s).1
  have h2 := genFinish_mem_grows s.now (genStarts ω as s).1
    { (genStarts ω as s).2 with now := s.now + maxRtt as } x y
  simpa [h1] using h2

/-- With a stream all of whose draws fail, a generation batch leaves every
memory list unchanged. -/
theorem genPhase_mem_fail (ω : ℕ → ℝ) (as : List FibreLink) (s : NetState)
    (hω : ∀ k l, l ∈ as → ¬ ω k < l.success_prob * DETECTION_EFFICIENCY) :
    (genPhase ω as s).mem = s.mem := by
  unfold genPhase
  have h1 := (genStarts_state ω as s).1
  rw [genFinish_mem_fail _ _ _ (genStarts_fail ω as s hω)]
  exact h1

/-- Every attempt created by the top-up loop is an attempt on a path link. -/
theorem attemptsList_subset (needed : ℕ) (m : ℕ → ℕ → List QMem) :
    ∀ (path : List FibreLink) (l : FibreLink),
      l ∈ attemptsList needed m path → l ∈ path := by
  intro path
  induction path with
  | nil => simp [attemptsList]
  | cons h rest ih =>
      intro l hl
      simp only [attemptsList, List.mem_append] at hl
      rcases hl with hl | hl
      · simp [List.eq_of_mem_replicate hl]
      · exact List.mem_cons_of_mem _ (ih l hl)

/-- The trial counter increments on every restart, whatever state caused
the restart. -/
theorem outerIter_next_trials (cfg : GenConfig) (path : List FibreLink)
    (ω : ℕ → ℝ) (af : ℕ) (s : NetState) (t r : ℕ) (s2 : NetState) (t2 r2 : ℕ)
    (h : outerIter cfg path ω af s t r = IterResult.next s2 t2 r2) :
    t2 = t + 1 := by
  simp only [outerIter] at h
  repeat' split at h
  all_goals first
    | (injection h with h1 h2 h3; omega)
    | simp at h

/-- A constructed link's attempt success probability is positive, so a
draw of 0 always succeeds. -/
theorem mk_sp_pos (a b : ℕ) (L att : ℝ) :
    0 < (mkFibreLink a b L att).success_prob * DETECTION_EFFICIENCY := by
  have h := Real.exp_pos (-(L / att))
  have hD : (0 : ℝ) < DETECTION_EFFICIENCY := by
    norm_num [DETECTION_EFFICIENCY, physicsInit]
  simpa [mkFibreLink] using mul_pos h hD

/-- For a physical link (non-negative length over attenuation), the attempt
success probability times the detection efficiency is below 1, so a draw of
1 always fails. -/
theorem mk_sp_lt_one (a b : ℕ) (L att : ℝ) (h : 0 ≤ L / att) :
    (mkFibreLink a b L att).success_prob * DETECTION_EFFICIENCY < 1 := by
  have h1 : Real.exp (-(L / att)) ≤ 1 := by
    rw [show (1 : ℝ) = Real.exp 0 from Real.exp_zero.symm]
    exact Real.exp_le_exp.mpr (by linarith)
  have h2 : 0 < Real.exp (-(L / att)) := Real.exp_pos _
  have hD : DETECTION_EFFICIENCY = 0.9 := by
    norm_num [DETECTION_EFFICIENCY, physicsInit]
  simp only [mkFibreLink]
  rw [hD]
  nlinarith

/-- Round-trip latency of a 10 km link: `2·(10·1000/2e8) = 1/10000` s. -/
theorem rtt_10 (a b : ℕ) : rtt (mkFibreLink a b 10 22) = 1 / 10000 := by
  norm_num [rtt, mkFibreLink, SPEED_OF_LIGHT_FIBER, physicsInit]

/-- Evaluation of a successful single-attempt generation batch. -/
theorem genPhase_one_succ (ω : ℕ → ℝ) (l : FibreLink) (s : NetState)
    (hab : l.a ≠ l.b) (hd : ω s.k < l.success_prob * DETECTION_EFFICIENCY) :
    (genPhase ω [l] s).mem l.a l.b
      = s.mem l.a l.b ++ [⟨s.nextUid, F0_LINK, s.now + rtt l⟩] ∧
    (genPhase ω [l] s).mem l.b l.a
      = s.mem l.b l.a ++ [⟨s.nextUid + 1, F0_LINK, s.now + rtt l⟩] ∧
    (∀ x y, ¬ (x = l.a ∧ y = l.b) → ¬ (x = l.b ∧ y = l.a) →
      (genPhase ω [l] s).mem x y = s.mem x y) ∧
    (genPhase ω [l] s).now = s.now + max (rtt l) 0 ∧
    (genPhase ω [l] s).k = s.k + 1 ∧
    (genPhase ω [l] s).nextUid = s.nextUid + 2 := by
  have hba : l.b ≠ l.a := Ne.symm hab
  refine
    ⟨by simp [genPhase, genStarts, genFinish, maxRtt, try_generate_mid, hd,
              appendQubit, setMem, hab, hba],
     by simp [genPhase, genStarts, genFinish, maxRtt, try_generate_mid, hd,
              appendQubit, setMem, hab, hba],
     fun x y hx hy => by
       simp [genPhase, genStarts, genFinish, maxRtt, try_generate_mid, hd,
             appendQubit, setMem, hab, hba, hx, hy],
     by simp [genPhase, genStarts, genFinish, maxRtt, try_generate_mid, hd,
              appendQubit, setMem, hab, hba],
     by simp [genPhase, genStarts, genFinish, maxRtt, try_generate_mid, hd,
              appendQubit, setMem, hab, hba],
     by simp [genPhase, genStarts, genFinish, maxRtt, try_generate_mid, hd,
              appendQubit, setMem, hab, hba]⟩

/-- Evaluation of a failed single-attempt generation batch. -/
theorem genPhase_one_fail (ω : ℕ → ℝ) (l : FibreLink) (s : NetState)
    (hd : ¬ ω s.k < l.success_prob * DETECTION_EFFICIENCY) :
    (∀ x y, (genPhase ω [l] s).mem x y = s.mem x y) ∧
    (genPhase ω [l] s).now = s.now + max (rtt l) 0 ∧
    (genPhase ω [l] s).k = s.k + 1 ∧
    (genPhase ω [l] s).nextUid = s.nextUid := by
  refine ⟨?_, ?_, ?_, ?_⟩ <;>
    simp [genPhase, genStarts, genFinish, maxRtt, try_generate_mid, hd]

/-- Endpoint indices of the concrete links. -/
theorem link01_a : link01.a = 0 := rfl

theorem link01_b : link01.b = 1 := rfl

theorem link12_a : link12.a = 1 := rfl

theorem link12_b : link12.b = 2 := rfl

/-- One failed outer-loop iteration on the single-link path `[link01]`
under `cfg0`: the iteration restarts with the trial counter incremented,
one more raw pair counted, memories still empty and the clock advanced by
one round trip. -/
theorem iter01_fail (ω : ℕ → ℝ) (af : ℕ) (s : NetState) (t r : ℕ)
    (ht : t < 5000) (h01 : s.mem 0 1 = []) (h10 : s.mem 1 0 = [])
    (hd : ¬ ω s.k < link01.success_prob * DETECTION_EFFICIENCY) :
    outerIter cfg0 [link01] ω af s t r
      = IterResult.next (genPhase ω [link01] s) (t + 1) (r + 1) ∧
    (genPhase ω [link01] s).mem 0 1 = [] ∧
    (genPhase ω [link01] s).mem 1 0 = [] ∧
    (genPhase ω [link01] s).now = s.now + 1 / 10000 ∧
    (genPhase ω [link01] s).k = s.k + 1 ∧
    (genPhase ω [link01] s).nextUid = s.nextUid := by
  obtain ⟨hm, hnow, hk, huid⟩ := genPhase_one_fail ω link01 s hd
  have hmax : max (rtt link01) 0 = 1 / 10000 := by
    rw [show rtt link01 = 1 / 10000 from rtt_10 0 1]
    norm_num
  have hat : attemptsList (cfg0.rounds + 1) s.mem [link01] = [link01] := by
    simp [attemptsList, cfg0, link01_a, link01_b, h01]
  have hver : ([link01].any fun l =>
      decide (((genPhase ω [link01] s).mem l.a l.b).length < cfg0.rounds + 1)) = true := by
    simp [cfg0, link01_a, link01_b, hm, h01]
  refine ⟨?_, by rw [hm]; exact h01, by rw [hm]; exact h10,
    by rw [hnow, hmax], hk, huid⟩
  simp only [outerIter]
  rw [if_neg (show ¬ cfg0.max_trials < t + 1 by simp only [cfg0]; omega)]
  rw [hat, if_pos hver]
  simp

/-- One successful outer-loop iteration on the single-link path `[link01]`
under `cfg0`: the trial returns after one round trip with the baseline
fidelity (no decay, as the single pair is consumed the instant it is
born). -/
theorem iter01_succ (ω : ℕ → ℝ) (af : ℕ) (s : NetState) (t r : ℕ)
    (ht : t < 5000) (h01 : s.mem 0 1 = []) (h10 : s.mem 1 0 = [])
    (hd : ω s.k < link01.success_prob * DETECTION_EFFICIENCY) :
    outerIter cfg0 [link01] ω af s t r
      = IterResult.out (RunResult.ok
          ⟨s.now + 1 / 10000, F0_LINK, r + 1, 1 / (s.now + 1 / 10000),
           ((r + 1 : ℕ) : ℝ) / (s.now + 1 / 10000)⟩)
          { genPhase ω [link01] s with
            mem := popFirstAll [link01] (genPhase ω [link01] s).mem } ∧
    popFirstAll [link01] (genPhase ω [link01] s).mem 0 1 = [] ∧
    popFirstAll [link01] (genPhase ω [link01] s).mem 1 0 = [] ∧
    (genPhase ω [link01] s).now = s.now + 1 / 10000 ∧
    (genPhase ω [link01] s).k = s.k + 1 := by
  have hab : link01.a ≠ link01.b := by simp [link01_a, link01_b]
  obtain ⟨hmab, hmba, hmo, hnow, hk, huid⟩ := genPhase_one_succ ω link01 s hab hd
  have hrtt : rtt link01 = 1 / 10000 := rtt_10 0 1
  have hmax : max (rtt link01) 0 = 1 / 10000 := by rw [hrtt]; norm_num
  have hm01 : (genPhase ω [link01] s).mem 0 1
      = [⟨s.nextUid, F0_LINK, s.now + 1 / 10000⟩] := by
    rw [hrtt] at hmab
    simpa [link01_a, link01_b, h01] using hmab
  have hm10 : (genPhase ω [link01] s).mem 1 0
      = [⟨s.nextUid + 1, F0_LINK, s.now + 1 / 10000⟩] := by
    rw [hrtt] at hmba
    simpa [link01_a, link01_b, h10] using hmba
  have hnow2 : (genPhase ω [link01] s).now = s.now + 1 / 10000 := by
    rw [hnow, hmax]
  have hat : attemptsList (cfg0.rounds + 1) s.mem [link01] = [link01] := by
    simp [attemptsList, cfg0, link01_a, link01_b, h01]
  have hver : ([link01].any fun l =>
      decide (((genPhase ω [link01] s).mem l.a l.b).length < cfg0.rounds + 1)) = false := by
    simp [cfg0, link01_a, link01_b, hm01]
  have hpop01 : popFirstAll [link01] (genPhase ω [link01] s).mem 0 1 = [] := by
    simp [popFirstAll, setMem, link01_a, link01_b, hm01]
  have hpop10 : popFirstAll [link01] (genPhase ω [link01] s).mem 1 0 = [] := by
    simp [popFirstAll, setMem, link01_a, link01_b, hm10]
  have hF : headFidelity (genPhase ω [link01] s) link01 = F0_LINK := by
    unfold headFidelity
    rw [link01_a, link01_b, hm01, hnow2]
    simp only [List.headI, fidelityQ]
    rw [sub_self]
    simp
  refine ⟨?_, hpop01, hpop10, hnow2, hk⟩
  simp only [outerIter]
  rw [if_neg (show ¬ cfg0.max_trials < t + 1 by simp only [cfg0]; omega)]
  rw [hat]
  rw [if_neg (show ¬ (([link01].any fun l =>
      decide (((genPhase ω [link01] s).mem l.a l.b).length < cfg0.rounds + 1)) = true)
    by rw [hver]; simp)]
  rw [show cfg0.strategy = Strategy.purify_then_swap from rfl]
  simp only []
  have hpl : purify_links ω (get_scheme cfg0.protocol) cfg0.rounds [link01]
      (genPhase ω [link01] s) = (true, genPhase ω [link01] s) := by
    show purify_links ω (get_scheme cfg0.protocol) 0 [link01] (genPhase ω [link01] s) = _
    simp [purify_links, purify_link]
  rw [hpl]
  rw [if_neg (show ¬ (((true, genPhase ω [link01] s) : Bool × NetState).1 = false) by simp)]
  rw [show swapFold (List.map (headFidelity
        ((true, genPhase ω [link01] s) : Bool × NetState).2) [link01])
      = headFidelity (genPhase ω [link01] s) link01 from rfl, hF]
  rw [if_pos (show apply_filter F0_LINK cfg0.filter_threshold by
    norm_num [apply_filter, F0_LINK, physicsInit, cfg0])]
  rw [show ((true, genPhase ω [link01] s) : Bool × NetState).2 = genPhase ω [link01] s from rfl]
  rw [hnow2]
  norm_num

/-- Unfolding of `generate_end_to_end` at fuel 1. -/
theorem generate_one (cfg : GenConfig) (path : List FibreLink) (ω : ℕ → ℝ)
    (s : NetState) (t r : ℕ) :
    generate_end_to_end cfg path ω 1 s t r
      = match outerIter cfg path ω 1 s t r with
        | IterResult.out rr s2 => some (rr, s2)
        | IterResult.stuck => none
        | IterResult.next _ _ _ => none := by
  show generate_end_to_end cfg path ω (0 + 1) s t r = _
  simp only [generate_end_to_end]

/-- Unfolding of `generate_end_to_end` at fuel 2. -/
theorem generate_two (cfg : GenConfig) (path : List FibreLink) (ω : ℕ → ℝ)
    (s : NetState) (t r : ℕ) :
    generate_end_to_end cfg path ω 2 s t r
      = match outerIter cfg path ω 2 s t r with
        | IterResult.out rr s2 => some (rr, s2)
        | IterResult.stuck => none
        | IterResult.next s2 t2 r2 =>
            match outerIter cfg path ω 1 s2 t2 r2 with
            | IterResult.out rr s3 => some (rr, s3)
            | IterResult.stuck => none
            | IterResult.next _ _ _ => none := by
  show generate_end_to_end cfg path ω (1 + 1) s t r = _
  simp only [generate_end_to_end, generate_one]

/-- With the ambient stream at position 0 (first draw fails), the orchestrator
on `[link01]` needs two trials and returns latency `2/10000` s. -/
theorem gen01_from_pos0 :
    ∃ out sf, generate_end_to_end cfg0 [link01] ωFirstFail 2 (mkInitState 0) 0 0
      = some (RunResult.ok out, sf) ∧ out.latency = 2 / 10000 := by
  have hd1 : ¬ ωFirstFail (mkInitState 0).k < link01.success_prob * DETECTION_EFFICIENCY := by
    have h := mk_sp_lt_one 0 1 10 22 (by norm_num)
    simp only [ωFirstFail, mkInitState, if_pos rfl]
    exact not_lt.mpr h.le
  obtain ⟨hstep1, hm01, hm10, hnow1, hk1, huid1⟩ :=
    iter01_fail ωFirstFail 2 (mkInitState 0) 0 0 (by norm_num)
      (by simp [mkInitState]) (by simp [mkInitState]) hd1
  have hd2 : ωFirstFail (genPhase ωFirstFail [link01] (mkInitState 0)).k
      < link01.success_prob * DETECTION_EFFICIENCY := by
    rw [hk1]
    have h := mk_sp_pos 0 1 10 22
    simp only [ωFirstFail, mkInitState]
    norm_num
    exact h
  obtain ⟨hstep2, hp01, hp10, hnow2, hk2⟩ :=
    iter01_succ ωFirstFail 1 (genPhase ωFirstFail [link01] (mkInitState 0)) (0 + 1) (0 + 1)
      (by norm_num) hm01 hm10 hd2
  have hgen : generate_end_to_end cfg0 [link01] ωFirstFail 2 (mkInitState 0) 0 0
      = some (RunResult.ok
          ⟨(genPhase ωFirstFail [link01] (mkInitState 0)).now + 1 / 10000, F0_LINK, 0 + 1 + 1,
           1 / ((genPhase ωFirstFail [link01] (mkInitState 0)).now + 1 / 10000),
           ((0 + 1 + 1 : ℕ) : ℝ) / ((genPhase ωFirstFail [link01] (mkInitState 0)).now + 1 / 10000)⟩,
          { genPhase ωFirstFail [link01] (genPhase ωFirstFail [link01] (mkInitState 0)) with
            mem := popFirstAll [link01]
              (genPhase ωFirstFail [link01] (genPhase ωFirstFail [link01] (mkInitState 0))).mem }) := by
    rw [generate_two, hstep1]
    simp only []
    rw [hstep2]
  refine ⟨_, _, hgen, ?_⟩
  rw [show (⟨(genPhase ωFirstFail [link01] (mkInitState 0)).now + 1 / 10000, F0_LINK, 0 + 1 + 1,
           1 / ((genPhase ωFirstFail [link01] (mkInitState 0)).now + 1 / 10000),
           ((0 + 1 + 1 : ℕ) : ℝ) / ((genPhase ωFirstFail [link01] (mkInitState 0)).now + 1 / 10000)⟩
        : TrialOutput).latency
      = (genPhase ωFirstFail [link01] (mkInitState 0)).now + 1 / 10000 from rfl]
  rw [hnow1]
  show (0 : ℝ) + 1 / 10000 + 1 / 10000 = 2 / 10000
  norm_num

/-- With the ambient stream at position 1 (that draw succeeds), the same
configuration returns after one trial with latency `1/10000` s. -/
theorem gen01_from_pos1 :
    ∃ out sf, generate_end_to_end cfg0 [link01] ωFirstFail 2 (mkInitState 1) 0 0
      = some (RunResult.ok out, sf) ∧ out.latency = 1 / 10000 := by
  have hd : ωFirstFail (mkInitState 1).k < link01.success_prob * DETECTION_EFFICIENCY := by
    have h := mk_sp_pos 0 1 10 22
    simp only [ωFirstFail, mkInitState]
    norm_num
    exact h
  obtain ⟨hstep, hp01, hp10, hnow, hk⟩ :=
    iter01_succ ωFirstFail 2 (mkInitState 1) 0 0 (by norm_num)
      (by simp [mkInitState]) (by simp [mkInitState]) hd
  have hgen : generate_end_to_end cfg0 [link01] ωFirstFail 2 (mkInitState 1) 0 0
      = some (RunResult.ok
          ⟨(mkInitState 1).now + 1 / 10000, F0_LINK, 0 + 1,
           1 / ((mkInitState 1).now + 1 / 10000),
           ((0 + 1 : ℕ) : ℝ) / ((mkInitState 1).now + 1 / 10000)⟩,
          { genPhase ωFirstFail [link01] (mkInitState 1) with
            mem := popFirstAll [link01] (genPhase ωFirstFail [link01] (mkInitState 1)).mem }) := by
    rw [generate_two, hstep]
  refine ⟨_, _, hgen, ?_⟩
  show (mkInitState 1).now + 1 / 10000 = 1 / 10000
  simp [mkInitState]

theorem exp_le_one_of_nonpos (x : ℝ) (h : x ≤ 0) : Real.exp x ≤ 1 := by
  rw [show (1 : ℝ) = Real.exp 0 from Real.exp_zero.symm]
  exact Real.exp_le_exp.mpr h

/-- Swapping two Werner fidelities in `[0,1]` gives a non-negative result. -/
theorem swap_nonneg (F1 F2 : ℝ) (h1 : 0 ≤ F1) (h1' : F1 ≤ 1)
    (h2 : 0 ≤ F2) (h2' : F2 ≤ 1) : 0 ≤ swap F1 F2 := by
  simp only [swap]
  nlinarith

/-- Evaluation of a two-attempt generation batch on `[link01, link12]`
where the first attempt succeeds and the second fails: one pair is stored
on the first hop, none on the second. -/
theorem genPhase_two_mixed (ω : ℕ → ℝ) (s : NetState)
    (hd1 : ω s.k < link01.success_prob * DETECTION_EFFICIENCY)
    (hd2 : ¬ ω (s.k + 1) < link12.success_prob * DETECTION_EFFICIENCY) :
    (genPhase ω [link01, link12] s).mem 0 1
      = s.mem 0 1 ++ [⟨s.nextUid, F0_LINK, s.now + rtt link01⟩] ∧
    (genPhase ω [link01, link12] s).mem 1 0
      = s.mem 1 0 ++ [⟨s.nextUid + 1, F0_LINK, s.now + rtt link01⟩] ∧
    (genPhase ω [link01, link12] s).mem 1 2 = s.mem 1 2 ∧
    (genPhase ω [link01, link12] s).mem 2 1 = s.mem 2 1 ∧
    (genPhase ω [link01, link12] s).now
      = s.now + max (rtt link01) (max (rtt link12) 0) ∧
    (genPhase ω [link01, link12] s).k = s.k + 2 ∧
    (genPhase ω [link01, link12] s).nextUid = s.nextUid + 2 := by
  refine
    ⟨by simp [genPhase, genStarts, genFinish, maxRtt, try_generate_mid, hd1, hd2,
              appendQubit, setMem, link01_a, link01_b, link12_a, link12_b],
     by simp [genPhase, genStarts, genFinish, maxRtt, try_generate_mid, hd1, hd2,
              appendQubit, setMem, link01_a, link01_b, link12_a, link12_b],
     by simp [genPhase, genStarts, genFinish, maxRtt, try_generate_mid, hd1, hd2,
              appendQubit, setMem, link01_a, link01_b, link12_a, link12_b],
     by simp [genPhase, genStarts, genFinish, maxRtt, try_generate_mid, hd1, hd2,
              appendQubit, setMem, link01_a, link01_b, link12_a, link12_b],
     by simp [genPhase, genStarts, genFinish, maxRtt, try_generate_mid, hd1, hd2,
              appendQubit, setMem, link01_a, link01_b, link12_a, link12_b],
     by simp [genPhase, genStarts, genFinish, maxRtt, try_generate_mid, hd1, hd2,
              appendQubit, setMem, link01_a, link01_b, link12_a, link12_b],
     by simp [genPhase, genStarts, genFinish, maxRtt, try_generate_mid, hd1, hd2,
              appendQubit, setMem, link01_a, link01_b, link12_a, link12_b]⟩

theorem mkInitState_mem (k x y : ℕ) : (mkInitState k).mem x y = [] := rfl

theorem mkInitState_now (k : ℕ) : (mkInitState k).now = 0 := rfl

theorem mkInitState_k (k : ℕ) : (mkInitState k).k = k := rfl

theorem mkInitState_uid (k : ℕ) : (mkInitState k).nextUid = 0 := rfl

/-- First outer-loop iteration of the C1 scenario: on the two-hop path the
first hop's attempt succeeds, the second fails, so the trial restarts from
GENERATING_HOPS — but the pair just generated on the first hop (register
uid 0, born at `1/10000` s) stays in memory. -/
theorem C1_iter1_eval :
    outerIter cfg0 [link01, link12] ωOneFail 1 (mkInitState 0) 0 0
      = IterResult.next (genPhase ωOneFail [link01, link12] (mkInitState 0)) 1 2 ∧
    (genPhase ωOneFail [link01, link12] (mkInitState 0)).mem 0 1
      = [⟨0, F0_LINK, 1 / 10000⟩] ∧
    (genPhase ωOneFail [link01, link12] (mkInitState 0)).mem 1 0
      = [⟨1, F0_LINK, 1 / 10000⟩] ∧
    (genPhase ωOneFail [link01, link12] (mkInitState 0)).mem 1 2 = [] ∧
    (genPhase ωOneFail [link01, link12] (mkInitState 0)).mem 2 1 = [] ∧
    (genPhase ωOneFail [link01, link12] (mkInitState 0)).now = 1 / 10000 ∧
    (genPhase ωOneFail [link01, link12] (mkInitState 0)).k = 2 ∧
    (genPhase ωOneFail [link01, link12] (mkInitState 0)).nextUid = 2 := by
  have hd1 : ωOneFail (mkInitState 0).k < link01.success_prob * DETECTION_EFFICIENCY := by
    have h := mk_sp_pos 0 1 10 22
    simp only [ωOneFail, mkInitState]
    norm_num
    exact h
  have hd2 : ¬ ωOneFail ((mkInitState 0).k + 1)
      < link12.success_prob * DETECTION_EFFICIENCY := by
    have h := mk_sp_lt_one 1 2 10 22 (by norm_num)
    simp only [ωOneFail, mkInitState]
    norm_num
    exact h.le
  obtain ⟨hq01, hq10, hq12, hq21, hnow, hk, huid⟩ :=
    genPhase_two_mixed ωOneFail (mkInitState 0) hd1 hd2
  rw [show rtt link01 = 1 / 10000 from rtt_10 0 1] at hq01 hq10
  rw [show rtt link01 = 1 / 10000 from rtt_10 0 1] at hnow
  rw [show rtt link12 = 1 / 10000 from rtt_10 1 2] at hnow
  simp only [mkInitState_mem, mkInitState_now, mkInitState_k, mkInitState_uid]
    at hq01 hq10 hq12 hq21 hnow hk huid
  norm_num [max_self] at hq01 hq10 hnow hk huid
  have hq01n : (genPhase ωOneFail [link01, link12] (mkInitState 0)).mem 0 1
      = [⟨0, F0_LINK, 1 / 10000⟩] := by
    rw [hq01]
  have hq10n : (genPhase ωOneFail [link01, link12] (mkInitState 0)).mem 1 0
      = [⟨1, F0_LINK, 1 / 10000⟩] := by
    rw [hq10]
  have hat : attemptsList (cfg0.rounds + 1) (mkInitState 0).mem [link01, link12]
      = [link01, link12] := by
    simp [attemptsList, cfg0, mkInitState, link01_a, link01_b, link12_a, link12_b]
  have hver : ([link01, link12].any fun l =>
      decide (((genPhase ωOneFail [link01, link12] (mkInitState 0)).mem l.a l.b).length
        < cfg0.rounds + 1)) = true := by
    simp [cfg0, link01_a, link01_b, link12_a, link12_b, hq12]
  refine ⟨?_, hq01n, hq10n, hq12, hq21, hnow, hk, huid⟩
  simp only [outerIter]
  rw [if_neg (show ¬ cfg0.max_trials < 0 + 1 by simp only [cfg0]; omega)]
  rw [hat, if_pos hver]
  simp

/-- A register's fidelity lies in `[0,1]` whenever its stored fidelity does
and no negative time has elapsed. -/
theorem fidelityQ_bounds (q : QMem) (t : ℝ) (hF0 : 0 ≤ q.F0) (hF1 : q.F0 ≤ 1)
    (hdt : q.birth ≤ t) : 0 ≤ fidelityQ q t ∧ fidelityQ q t ≤ 1 := by
  unfold fidelityQ
  constructor
  · exact mul_nonneg hF0 (Real.exp_pos _).le
  · have hc : DEFAULT_COHERENCE_TIME_S = 1 := by
      norm_num [DEFAULT_COHERENCE_TIME_S, physicsInit]
    have hexp : Real.exp (-((t - q.birth) / DEFAULT_COHERENCE_TIME_S)) ≤ 1 := by
      apply exp_le_one_of_nonpos
      rw [hc]
      simp only [div_one]
      linarith
    nlinarith [Real.exp_pos (-((t - q.birth) / DEFAULT_COHERENCE_TIME_S))]

/-- Second outer-loop iteration of the C1 scenario: only the missing
second-hop pair is regenerated (the retained first-hop pair counts toward
`needed`), the trial succeeds, and both memories of the first hop are empty
afterwards — the register generated during the failed first iteration has
been consumed by the swap stage. -/
theorem C1_iter2_eval :
    ∃ out s2, outerIter cfg0 [link01, link12] ωOneFail 1
        (genPhase ωOneFail [link01, link12] (mkInitState 0)) 1 2
      = IterResult.out (RunResult.ok out) s2 ∧
      s2.mem 0 1 = [] ∧ s2.mem 1 0 = [] := by
  obtain ⟨_, hm01, hm10, hm12, hm21, hnow, hk, huid⟩ := C1_iter1_eval
  set s1 := genPhase ωOneFail [link01, link12] (mkInitState 0) with hs1
  have hd : ωOneFail s1.k < link12.success_prob * DETECTION_EFFICIENCY := by
    rw [hk]
    have h := mk_sp_pos 1 2 10 22
    simp only [ωOneFail]
    norm_num
    exact h
  have hab12 : link12.a ≠ link12.b := by simp [link12_a, link12_b]
  obtain ⟨hg12, hg21, hgo, hgnow, hgk, hguid⟩ :=
    genPhase_one_succ ωOneFail link12 s1 hab12 hd
  have hrtt12 : rtt link12 = 1 / 10000 := rtt_10 1 2
  have hmax12 : max (rtt link12) 0 = 1 / 10000 := by rw [hrtt12]; norm_num
  have hg12n : (genPhase ωOneFail [link12] s1).mem 1 2
      = [⟨s1.nextUid, F0_LINK, s1.now + rtt link12⟩] := by
    rw [link12_a, link12_b] at hg12
    rw [hg12, hm12]
    simp
  have hg01n : (genPhase ωOneFail [link12] s1).mem 0 1
      = [⟨0, F0_LINK, 1 / 10000⟩] := by
    rw [hgo 0 1 (by simp [link12_a, link12_b]) (by simp [link12_a, link12_b]), hm01]
  have hg10n : (genPhase ωOneFail [link12] s1).mem 1 0
      = [⟨1, F0_LINK, 1 / 10000⟩] := by
    rw [hgo 1 0 (by simp [link12_a, link12_b]) (by simp [link12_a, link12_b]), hm10]
  have hgnow2 : (genPhase ωOneFail [link12] s1).now = 1 / 10000 + 1 / 10000 := by
    rw [hgnow, hmax12, hnow]
  have hb1 : 0 ≤ headFidelity (genPhase ωOneFail [link12] s1) link01 ∧
      headFidelity (genPhase ωOneFail [link12] s1) link01 ≤ 1 := by
    unfold headFidelity
    rw [link01_a, link01_b, hg01n]
    simp only [List.headI]
    exact fidelityQ_bounds _ _ (by norm_num [F0_LINK, physicsInit])
      (by norm_num [F0_LINK, physicsInit]) (by rw [hgnow2]; norm_num)
  have hb2 : 0 ≤ headFidelity (genPhase ωOneFail [link12] s1) link12 ∧
      headFidelity (genPhase ωOneFail [link12] s1) link12 ≤ 1 := by
    unfold headFidelity
    rw [link12_a, link12_b, hg12n]
    simp only [List.headI]
    refine fidelityQ_bounds _ _ (by norm_num [F0_LINK, physicsInit])
      (by norm_num [F0_LINK, physicsInit]) ?_
    rw [hgnow2, hnow, hrtt12]
  have hfil : apply_filter (swapFold (List.map
      (headFidelity (genPhase ωOneFail [link12] s1)) [link01, link12]))
      cfg0.filter_threshold := by
    rw [show swapFold (List.map (headFidelity (genPhase ωOneFail [link12] s1))
        [link01, link12])
      = swap (headFidelity (genPhase ωOneFail [link12] s1) link01)
          (headFidelity (genPhase ωOneFail [link12] s1) link12) from rfl]
    rw [show cfg0.filter_threshold = 0 from rfl]
    exact swap_nonneg _ _ hb1.1 hb1.2 hb2.1 hb2.2
  have hpop01 : popFirstAll [link01, link12]
      (genPhase ωOneFail [link12] s1).mem 0 1 = [] := by
    simp [popFirstAll, setMem, link01_a, link01_b, link12_a, link12_b, hg01n]
  have hpop10 : popFirstAll [link01, link12]
      (genPhase ωOneFail [link12] s1).mem 1 0 = [] := by
    simp [popFirstAll, setMem, link01_a, link01_b, link12_a, link12_b, hg10n]
  have hat2 : attemptsList (cfg0.rounds + 1) s1.mem [link01, link12] = [link12] := by
    simp [attemptsList, cfg0, link01_a, link01_b, link12_a, link12_b, hm01, hm12]
  have hver2 : ([link01, link12].any fun l =>
      decide (((genPhase ωOneFail [link12] s1).mem l.a l.b).length < cfg0.rounds + 1))
      = false := by
    simp [cfg0, link01_a, link01_b, link12_a, link12_b, hg01n, hg12n]
  have hiter : outerIter cfg0 [link01, link12] ωOneFail 1 s1 1 2
      = IterResult.out (RunResult.ok
          ⟨({ genPhase ωOneFail [link12] s1 with
              mem := popFirstAll [link01, link12]
                (genPhase ωOneFail [link12] s1).mem } : NetState).now,
           swapFold (List.map (headFidelity (genPhase ωOneFail [link12] s1))
             [link01, link12]),
           2 + [link12].length,
           1 / ({ genPhase ωOneFail [link12] s1 with
              mem := popFirstAll [link01, link12]
                (genPhase ωOneFail [link12] s1).mem } : NetState).now,
           ((2 + [link12].length : ℕ) : ℝ) / ({ genPhase ωOneFail [link12] s1 with
              mem := popFirstAll [link01, link12]
                (genPhase ωOneFail [link12] s1).mem } : NetState).now⟩)
          { genPhase ωOneFail [link12] s1 with
            mem := popFirstAll [link01, link12]
              (genPhase ωOneFail [link12] s1).mem } := by
    simp only [outerIter]
    rw [if_neg (show ¬ cfg0.max_trials < 1 + 1 by simp only [cfg0]; omega)]
    rw [hat2]
    rw [if_neg (show ¬ (([link01, link12].any fun l =>
        decide (((genPhase ωOneFail [link12] s1).mem l.a l.b).length < cfg0.rounds + 1))
        = true) by rw [hver2]; simp)]
    rw [show cfg0.strategy = Strategy.purify_then_swap from rfl]
    simp only []
    have hpl : purify_links ωOneFail (get_scheme cfg0.protocol) cfg0.rounds
        [link01, link12] (genPhase ωOneFail [link12] s1)
        = (true, genPhase ωOneFail [link12] s1) := by
      show purify_links ωOneFail (get_scheme cfg0.protocol) 0
        [link01, link12] (genPhase ωOneFail [link12] s1) = _
      simp [purify_links, purify_link]
    rw [hpl]
    rw [if_neg (show ¬ (((true, genPhase ωOneFail [link12] s1) : Bool × NetState).1 = false)
      by simp)]
    rw [show ((true, genPhase ωOneFail [link12] s1) : Bool × NetState).2
      = genPhase ωOneFail [link12] s1 from rfl]
    rw [if_pos hfil]
  exact ⟨_, _, hiter, hpop01, hpop10⟩

/-- Unfolding of the Monte-Carlo repetition loop for a single run. -/
theorem runLoop_one (fuel : ℕ) (cfg : GenConfig) (att : ℝ) (topo : Topo)
    (n : ℕ) (L : ℝ) (ω : ℕ → ℝ) (k : ℕ) :
    runLoop fuel cfg att topo n L ω 1 k
      = match generate_end_to_end cfg (getPath topo (buildTopology att topo n L))
          ω fuel (mkInitState k) 0 0 with
        | some (RunResult.ok out, sFin) => some ([out], sFin.k)
        | _ => none := by
  show runLoop fuel cfg att topo n L ω (0 + 1) k = _
  simp only [runLoop]

/-- `tunePhysics` reads only the `coherence_time` and `att_len` keys. -/
theorem tunePhysics_congr (p1 p2 : Params) (phys : PhysicsConfig)
    (h1 : p1.coherence_time = p2.coherence_time) (h2 : p1.att_len = p2.att_len) :
    tunePhysics p1 phys = tunePhysics p2 phys := by
  simp [tunePhysics, h1, h2]

/-! ### Claim C10 — coherence_time has no effect on decay -/

/-- C10: `run` does mutate the singleton field
`DEFAULT_COHERENCE_TIME_S` when the `coherence_time` key is present, but
`QuantumMemory.fidelity` divides by the module-level constant bound once
at module load (1.0 s), so the whole batch output (everything except the echoed
parameters and the tuned singleton) is identical for two configurations
differing only in `coherence_time`. -/
theorem C10_coherence_time_ignored :
    (∀ (p : Params) (phys : PhysicsConfig) (c : ℝ),
      (tunePhysics { p with coherence_time := some c } phys).DEFAULT_COHERENCE_TIME_S = c) ∧
    DEFAULT_COHERENCE_TIME_S = 1 ∧
    (∀ (q : QMem) (t : ℝ),
      fidelityQ q t
        = q.F0 * Real.exp (-((t - q.birth) / physicsInit.DEFAULT_COHERENCE_TIME_S))) ∧
    (∀ (fuel : ℕ) (p : Params) (ω : ℕ → ℝ) (k : ℕ) (phys : PhysicsConfig) (c1 c2 : ℝ),
      Option.map statsOf (run fuel { p with coherence_time := some c1 } ω k phys).1
        = Option.map statsOf (run fuel { p with coherence_time := some c2 } ω k phys).1) := by
  refine ⟨?_, ?_, fun q t => rfl, ?_⟩
  · intro p phys c
    cases hp : p.att_len <;> simp [tunePhysics, hp]
  · norm_num [DEFAULT_COHERENCE_TIME_S, physicsInit]
  · intro fuel p ω k phys c1 c2
    have hatt : (tunePhysics { p with coherence_time := some c1 } phys).ATTENUATION_LENGTH_KM
        = (tunePhysics { p with coherence_time := some c2 } phys).ATTENUATION_LENGTH_KM := by
      cases hp : p.att_len <;> simp [tunePhysics, hp]
    unfold run
    dsimp only
    rw [hatt]
    rcases h : runLoop fuel ⟨p.rounds, p.filter_threshold, p.strategy, p.protocol, 5000⟩
        (tunePhysics { p with coherence_time := some c2 } phys).ATTENUATION_LENGTH_KM
        p.topology p.nodes p.link_length ω p.runs k with _ | ⟨outs, k2⟩ <;>
      simp [statsOf, mkSummary]

/-! ### Claim C5 — determinism and the seed -/

/-- C5 amended: `run` never seeds any random generator and never reads the
`seed` parameter; its output is a deterministic function of the parameters
and of the ambient process-wide random stream (and its position), and two
configurations differing only in `seed` produce identical statistics and
identical tuned physics. -/
theorem C5_run_ignores_seed :
    ∀ (fuel : ℕ) (p : Params) (ω : ℕ → ℝ) (k : ℕ) (phys : PhysicsConfig) (s1 s2 : ℤ),
      Option.map statsOf (run fuel { p with seed := s1 } ω k phys).1
        = Option.map statsOf (run fuel { p with seed := s2 } ω k phys).1 ∧
      (run fuel { p with seed := s1 } ω k phys).2
        = (run fuel { p with seed := s2 } ω k phys).2 := by
  intro fuel p ω k phys s1 s2
  have ht : tunePhysics { p with seed := s1 } phys = tunePhysics { p with seed := s2 } phys :=
    tunePhysics_congr _ _ _ rfl rfl
  constructor
  · unfold run
    dsimp only
    rw [ht]
    rcases h : runLoop fuel ⟨p.rounds, p.filter_threshold, p.strategy, p.protocol, 5000⟩
        (tunePhysics { p with seed := s2 } phys).ATTENUATION_LENGTH_KM
        p.topology p.nodes p.link_length ω p.runs k with _ | ⟨outs, k2⟩ <;>
      simp [statsOf, mkSummary]
  · unfold run
    dsimp only
    rw [ht]
    rcases h : runLoop fuel ⟨p.rounds, p.filter_threshold, p.strategy, p.protocol, 5000⟩
        (tunePhysics { p with seed := s2 } phys).ATTENUATION_LENGTH_KM
        p.topology p.nodes p.link_length ω p.runs k with _ | ⟨outs, k2⟩ <;>
      simp

/-- C5 counterexample: two invocations of `run` with identical parameters
(including the seed) but the ambient process-wide random stream at
different positions — exactly the situation of two successive invocations
in one process, since `run` never seeds or resets the stream — return
different summaries, refuting fixed-seed reproducibility. -/
theorem C5_fixed_seed_not_reproducible :
    (∃ a, (run 2 pRunner ωFirstFail 0 physicsInit).1 = some a ∧
      a.latency_mean = 2 / 10000) ∧
    (∃ b, (run 2 pRunner ωFirstFail 1 physicsInit).1 = some b ∧
      b.latency_mean = 1 / 10000) ∧
    (run 2 pRunner ωFirstFail 0 physicsInit).1
      ≠ (run 2 pRunner ωFirstFail 1 physicsInit).1 := by
  obtain ⟨outA, sfA, hgenA, hlatA⟩ := gen01_from_pos0
  obtain ⟨outB, sfB, hgenB, hlatB⟩ := gen01_from_pos1
  have hpath : getPath pRunner.topology
      (buildTopology (tunePhysics pRunner physicsInit).ATTENUATION_LENGTH_KM
        pRunner.topology pRunner.nodes pRunner.link_length) = [link01] := by
    simp [getPath, buildTopology, tunePhysics, pRunner, link01, physicsInit,
          List.range_succ]
  have hcfg : (⟨pRunner.rounds, pRunner.filter_threshold, pRunner.strategy,
      pRunner.protocol, 5000⟩ : GenConfig) = cfg0 := rfl
  have hrunA : (run 2 pRunner ωFirstFail 0 physicsInit).1
      = some (mkSummary pRunner [outA]) := by
    unfold run
    dsimp only
    rw [hcfg, show pRunner.runs = 1 from rfl, runLoop_one, hpath, hgenA]
  have hrunB : (run 2 pRunner ωFirstFail 1 physicsInit).1
      = some (mkSummary pRunner [outB]) := by
    unfold run
    dsimp only
    rw [hcfg, show pRunner.runs = 1 from rfl, runLoop_one, hpath, hgenB]
  have hmeanA : (mkSummary pRunner [outA]).latency_mean = 2 / 10000 := by
    simp [mkSummary, meanR, hlatA]
  have hmeanB : (mkSummary pRunner [outB]).latency_mean = 1 / 10000 := by
    simp [mkSummary, meanR, hlatB]
  refine ⟨⟨_, hrunA, hmeanA⟩, ⟨_, hrunB, hmeanB⟩, ?_⟩
  rw [hrunA, hrunB]
  intro hcontra
  have h2 := congrArg Summary.latency_mean (Option.some.inj hcontra)
  rw [hmeanA, hmeanB] at h2
  norm_num at h2

/-! ### Claim C1 — failed-iteration resources are not abandoned -/

/-- C1 counterexample: on the two-hop path, iteration 1 generates a pair on
hop 1 (register uid 0 — the uid counter started at 0 and memory was empty)
while hop 2 fails, so the trial restarts from GENERATING_HOPS because a
link has fewer than the needed pairs — yet the restart state still holds
register uid 0 on hop 1.  Iteration 2 then succeeds and consumes it (hop 1
memory is empty after the success), refuting "all partial resources from
that attempt are abandoned — not re-used". -/
theorem C1_retained_qubit_counterexample :
    (mkInitState 0).mem 0 1 = [] ∧ (mkInitState 0).nextUid = 0 ∧
    outerIter cfg0 [link01, link12] ωOneFail 1 (mkInitState 0) 0 0
      = IterResult.next (genPhase ωOneFail [link01, link12] (mkInitState 0)) 1 2 ∧
    (genPhase ωOneFail [link01, link12] (mkInitState 0)).mem 1 2 = [] ∧
    (genPhase ωOneFail [link01, link12] (mkInitState 0)).mem 0 1
      = [⟨0, F0_LINK, 1 / 10000⟩] ∧
    (∃ out s2, outerIter cfg0 [link01, link12] ωOneFail 1
        (genPhase ωOneFail [link01, link12] (mkInitState 0)) 1 2
      = IterResult.out (RunResult.ok out) s2 ∧
      s2.mem 0 1 = [] ∧ s2.mem 1 0 = []) := by
  obtain ⟨h1, h2, _, h4, _, _, _, _⟩ := C1_iter1_eval
  exact ⟨rfl, rfl, h1, h4, h2, C1_iter2_eval⟩

/-- C1 amended: when an outer-loop iteration restarts because some link has
fewer than the needed pairs, nothing is discarded: the iteration's restart
state is exactly the post-generation state, every pre-iteration memory list
is a prefix of the post-iteration one (qubits generated during the failed
iteration are retained and counted toward later iterations' needs), and the
trial counter increments by one. -/
theorem C1_failed_iteration_retains_pairs
    (cfg : GenConfig) (path : List FibreLink) (ω : ℕ → ℝ) (af : ℕ)
    (s : NetState) (t r : ℕ)
    (ht : t + 1 ≤ cfg.max_trials)
    (hver : (path.any fun l =>
      decide (((genPhase ω (attemptsList (cfg.rounds + 1) s.mem path) s).mem
        l.a l.b).length < cfg.rounds + 1)) = true) :
    outerIter cfg path ω af s t r
      = IterResult.next
          (genPhase ω (attemptsList (cfg.rounds + 1) s.mem path) s) (t + 1)
          (r + (attemptsList (cfg.rounds + 1) s.mem path).length) ∧
    ∀ x y, s.mem x y <+:
      (genPhase ω (attemptsList (cfg.rounds + 1) s.mem path) s).mem x y := by
  refine ⟨?_, fun x y => genPhase_mem_grows ω _ s x y⟩
  simp only [outerIter]
  rw [if_neg (by omega), if_pos hver]

/-- C1 witness: the amended statement applied to the scenario's first
iteration. -/
theorem C1_failed_iteration_retains_pairs_witness :
    (0 + 1 ≤ cfg0.max_trials) ∧
    (([link01, link12].any fun l =>
      decide (((genPhase ωOneFail (attemptsList (cfg0.rounds + 1)
        (mkInitState 0).mem [link01, link12]) (mkInitState 0)).mem
        l.a l.b).length < cfg0.rounds + 1)) = true) ∧
    (outerIter cfg0 [link01, link12] ωOneFail 1 (mkInitState 0) 0 0
      = IterResult.next
          (genPhase ωOneFail (attemptsList (cfg0.rounds + 1)
            (mkInitState 0).mem [link01, link12]) (mkInitState 0)) (0 + 1)
          (0 + (attemptsList (cfg0.rounds + 1)
            (mkInitState 0).mem [link01, link12]).length) ∧
     ∀ x y, (mkInitState 0).mem x y <+:
       (genPhase ωOneFail (attemptsList (cfg0.rounds + 1)
         (mkInitState 0).mem [link01, link12]) (mkInitState 0)).mem x y) := by
  have hat : attemptsList (cfg0.rounds + 1) (mkInitState 0).mem [link01, link12]
      = [link01, link12] := by
    simp [attemptsList, cfg0, mkInitState, link01_a, link01_b, link12_a, link12_b]
  obtain ⟨_, _, _, hm12, _, _, _, _⟩ := C1_iter1_eval
  have hver : (([link01, link12].any fun l =>
      decide (((genPhase ωOneFail (attemptsList (cfg0.rounds + 1)
        (mkInitState 0).mem [link01, link12]) (mkInitState 0)).mem
        l.a l.b).length < cfg0.rounds + 1)) = true) := by
    rw [hat]
    simp [cfg0, link01_a, link01_b, link12_a, link12_b, hm12]
  exact ⟨by norm_num [cfg0], hver,
    C1_failed_iteration_retains_pairs cfg0 [link01, link12] ωOneFail 1
      (mkInitState 0) 0 0 (by norm_num [cfg0]) hver⟩

/-- With a stream all of whose draws fail, an outer-loop iteration below
the trial budget restarts with memories still empty. -/
theorem outerIter_allFail (cfg : GenConfig) (path : List FibreLink)
    (ω : ℕ → ℝ) (af : ℕ) (s : NetState) (t r : ℕ)
    (hpath : path ≠ [])
    (hω : ∀ k l, l ∈ path → ¬ ω k < l.success_prob * DETECTION_EFFICIENCY)
    (hmem : memEmptyOnPath path s)
    (ht : t + 1 ≤ cfg.max_trials) :
    ∃ s2, outerIter cfg path ω af s t r
        = IterResult.next s2 (t + 1)
            (r + (attemptsList (cfg.rounds + 1) s.mem path).length) ∧
      memEmptyOnPath path s2 := by
  have hωa : ∀ k l, l ∈ attemptsList (cfg.rounds + 1) s.mem path →
      ¬ ω k < l.success_prob * DETECTION_EFFICIENCY :=
    fun k l hl => hω k l (attemptsList_subset _ _ path l hl)
  have hmemeq : (genPhase ω (attemptsList (cfg.rounds + 1) s.mem path) s).mem = s.mem :=
    genPhase_mem_fail ω _ s hωa
  have hver : (path.any fun l =>
      decide (((genPhase ω (attemptsList (cfg.rounds + 1) s.mem path) s).mem
        l.a l.b).length < cfg.rounds + 1)) = true := by
    rw [List.any_eq_true]
    obtain ⟨l0, hl0⟩ : ∃ l0, l0 ∈ path := by
      cases path with
      | nil => exact absurd rfl hpath
      | cons a b => exact ⟨a, by simp⟩
    refine ⟨l0, hl0, ?_⟩
    rw [hmemeq, hmem l0 hl0]
    simp
  refine ⟨genPhase ω (attemptsList (cfg.rounds + 1) s.mem path) s, ?_, ?_⟩
  · simp only [outerIter]
    rw [if_neg (by omega), if_pos hver]
  · intro l hl
    rw [hmemeq]
    exact hmem l hl

/-- With a stream all of whose draws fail, the orchestrator raises the
constant `RuntimeError` message once the trial counter passes the budget:
termination within `max_trials + 1` iterations. -/
theorem allFail_exceeds (cfg : GenConfig) (path : List FibreLink) (ω : ℕ → ℝ)
    (hpath : path ≠ [])
    (hω : ∀ k l, l ∈ path → ¬ ω k < l.success_prob * DETECTION_EFFICIENCY) :
    ∀ (m t r : ℕ) (s : NetState), memEmptyOnPath path s →
      cfg.max_trials < t + m → 1 ≤ m →
      ∃ sf, generate_end_to_end cfg path ω m s t r
        = some (RunResult.err "Exceeded max trials", sf) := by
  intro m
  induction m with
  | zero =>
      intro t r s _ _ h1
      omega
  | succ n ih =>
      intro t r s hmem hlt _
      by_cases hcase : cfg.max_trials < t + 1
      · refine ⟨s, ?_⟩
        have hout : outerIter cfg path ω (n + 1) s t r
            = IterResult.out (RunResult.err "Exceeded max trials") s := by
          simp only [outerIter]
          rw [if_pos hcase]
        simp only [generate_end_to_end]
        rw [hout]
      · push_neg at hcase
        obtain ⟨s2, hstep, hmem2⟩ :=
          outerIter_allFail cfg path ω (n + 1) s t r hpath hω hmem hcase
        rcases Nat.lt_or_ge n 1 with hn | hn
        · exfalso
          omega
        · obtain ⟨sf, hrec⟩ :=
            ih (t + 1) (r + (attemptsList (cfg.rounds + 1) s.mem path).length)
              s2 hmem2 (by omega) hn
          refine ⟨sf, ?_⟩
          simp only [generate_end_to_end]
          rw [hstep]
          exact hrec

/-! ### Claim C4 — trial budget and the raised error -/

/-- C4 counterexample: the raised error is the constant
`RuntimeError("Exceeded max trials")`.  Two configurations with different
trial budgets (0 and 2, hence failing at trial counts 1 and 3) and
different paths (one hop versus two hops) raise the very same payload, so
the error carries neither the trial count nor a path description. -/
theorem C4_error_payload_counterexample :
    Option.map Prod.fst
        (generate_end_to_end cfgA [link01] ωAllFail 1 (mkInitState 0) 0 0)
      = some (RunResult.err "Exceeded max trials") ∧
    Option.map Prod.fst
        (generate_end_to_end cfgB [link01, link12] ωAllFail 3 (mkInitState 0) 0 0)
      = some (RunResult.err "Exceeded max trials") ∧
    cfgA.max_trials ≠ cfgB.max_trials ∧
    ([link01] : List FibreLink).length ≠ ([link01, link12] : List FibreLink).length := by
  have hf1 : ∀ k l, l ∈ ([link01] : List FibreLink) →
      ¬ ωAllFail k < l.success_prob * DETECTION_EFFICIENCY := by
    intro k l hl
    simp only [List.mem_singleton] at hl
    subst hl
    simp only [ωAllFail]
    exact not_lt.mpr (mk_sp_lt_one 0 1 10 22 (by norm_num)).le
  have hf2 : ∀ k l, l ∈ ([link01, link12] : List FibreLink) →
      ¬ ωAllFail k < l.success_prob * DETECTION_EFFICIENCY := by
    intro k l hl
    simp only [List.mem_cons, List.mem_singleton, List.not_mem_nil, or_false] at hl
    rcases hl with hl | hl <;> subst hl <;> simp only [ωAllFail]
    · exact not_lt.mpr (mk_sp_lt_one 0 1 10 22 (by norm_num)).le
    · exact not_lt.mpr (mk_sp_lt_one 1 2 10 22 (by norm_num)).le
  obtain ⟨sf1, h1⟩ := allFail_exceeds cfgA [link01] ωAllFail (by simp) hf1
    1 0 0 (mkInitState 0) (fun l _ => mkInitState_mem 0 l.a l.b)
    (by norm_num [cfgA]) (by omega)
  obtain ⟨sf2, h2⟩ := allFail_exceeds cfgB [link01, link12] ωAllFail (by simp) hf2
    3 0 0 (mkInitState 0) (fun l _ => mkInitState_mem 0 l.a l.b)
    (by norm_num [cfgB]) (by omega)
  refine ⟨?_, ?_, ?_, ?_⟩
  · rw [h1]
    rfl
  · rw [h2]
    rfl
  · simp [cfgA, cfgB]
  · simp

/-- C4 amended: the trial counter increments on every outer-loop restart,
whatever state caused it, and exceeding `max_trials` raises a fatal
`RuntimeError` whose message is the constant string "Exceeded max trials"
(it carries neither the trial count nor the path description); for any
configuration and any stream on which every generation draw fails (success
probability effectively zero), `generate_end_to_end` on a nonempty path
with empty initial memories raises this error within `max_trials + 1`
iterations rather than looping indefinitely. -/
theorem C4_trial_budget :
    (∀ (cfg : GenConfig) (path : List FibreLink) (ω : ℕ → ℝ) (af : ℕ)
        (s : NetState) (t r : ℕ) (s2 : NetState) (t2 r2 : ℕ),
      outerIter cfg path ω af s t r = IterResult.next s2 t2 r2 → t2 = t + 1) ∧
    (∀ (cfg : GenConfig) (path : List FibreLink) (ω : ℕ → ℝ),
      path ≠ [] →
      (∀ k l, l ∈ path → ¬ ω k < l.success_prob * DETECTION_EFFICIENCY) →
      ∀ s : NetState, memEmptyOnPath path s →
      ∃ sf, generate_end_to_end cfg path ω (cfg.max_trials + 1) s 0 0
        = some (RunResult.err "Exceeded max trials", sf)) := by
  refine ⟨outerIter_next_trials, ?_⟩
  intro cfg path ω hpath hω s hmem
  exact allFail_exceeds cfg path ω hpath hω (cfg.max_trials + 1) 0 0 s hmem
    (by omega) (by omega)

/-- C4 witness: the all-fail scenario on the two-hop path with budget 2
raises the constant error. -/
theorem C4_trial_budget_witness :
    (([link01, link12] : List FibreLink) ≠ []) ∧
    (∀ k l, l ∈ ([link01, link12] : List FibreLink) →
      ¬ ωAllFail k < l.success_prob * DETECTION_EFFICIENCY) ∧
    memEmptyOnPath [link01, link12] (mkInitState 0) ∧
    (∃ sf, generate_end_to_end cfgB [link01, link12] ωAllFail
        (cfgB.max_trials + 1) (mkInitState 0) 0 0
      = some (RunResult.err "Exceeded max trials", sf)) := by
  have hpath : ([link01, link12] : List FibreLink) ≠ [] := by simp
  have hf2 : ∀ k l, l ∈ ([link01, link12] : List FibreLink) →
      ¬ ωAllFail k < l.success_prob * DETECTION_EFFICIENCY := by
    intro k l hl
    simp only [List.mem_cons, List.mem_singleton, List.not_mem_nil, or_false] at hl
    rcases hl with hl | hl <;> subst hl <;> simp only [ωAllFail]
    · exact not_lt.mpr (mk_sp_lt_one 0 1 10 22 (by norm_num)).le
    · exact not_lt.mpr (mk_sp_lt_one 1 2 10 22 (by norm_num)).le
  have hmem : memEmptyOnPath [link01, link12] (mkInitState 0) :=
    fun l _ => mkInitState_mem 0 l.a l.b
  exact ⟨hpath, hf2, hmem,
    C4_trial_budget.2 cfgB [link01, link12] ωAllFail hpath hf2 (mkInitState 0) hmem⟩

end QNet
